import Mathlib

/-!
# Verification of the pytubefix download-task pipeline (`src/run.py`)

Shallow embedding of the task store (`YouTubeTaskManager`) and the download
orchestrator (`YouTubeDownloader`) from `src/run.py`.  Python strings are
modelled as `List Char` (code points), the SQLite `tasks` table as a list of
rows whose column values are `DBValue` (SQLite is dynamically typed), the
filesystem as a membership predicate on paths, and the external pytubefix /
moviepy collaborators as an oracle record supplying the outcome of each
external call.  Python exceptions are modelled with `Except`; since Python
exceptions do not roll back state, error values carry the world reached at the
raise point.
-/

namespace PytubefixRun

/-- Python strings are sequences of code points. -/
abbrev Chars := List Char

/-- Shorthand turning a Lean string literal into its code-point list. -/
def strL (s : String) : Chars := s.toList

/-! ## SQLite values and the `tasks` table row (`create_table`, run.py:1556) -/

/-- A dynamically-typed SQLite cell value. -/
inductive DBValue where
  | null : DBValue
  | int : Int → DBValue
  | text : Chars → DBValue
deriving DecidableEq, Repr

/-- One row of the `tasks` table, with the 15 columns of `create_table`. -/
structure Task where
  id : DBValue
  youtube_id : DBValue
  video_url : DBValue
  suggested_filename_base : DBValue
  final_video_filename : DBValue
  final_audio_filename : DBValue
  status : DBValue
  video_filepath : DBValue
  audio_filepath : DBValue
  video_hash : DBValue
  audio_hash : DBValue
  retries : DBValue
  error_message : DBValue
  added_date : DBValue
  last_updated_date : DBValue
deriving DecidableEq, Repr

/-- The persistent task store: the rows of the `tasks` table, in insertion
order (`id` is autoincrement; rows are never deleted by the core). -/
abbrev Store := List Task

/-- The column names reported by `PRAGMA table_info(tasks)`. -/
def tableColumns : List Chars :=
  [strL "id", strL "youtube_id", strL "video_url", strL "suggested_filename_base",
   strL "final_video_filename", strL "final_audio_filename", strL "status",
   strL "video_filepath", strL "audio_filepath", strL "video_hash",
   strL "audio_hash", strL "retries", strL "error_message", strL "added_date",
   strL "last_updated_date"]

/-- The fifteen columns of the `tasks` table, as an enumeration used to give
the by-name cell access of `update_task` a tractable form. -/
inductive TaskField where
  | id : TaskField
  | youtube_id : TaskField
  | video_url : TaskField
  | suggested_filename_base : TaskField
  | final_video_filename : TaskField
  | final_audio_filename : TaskField
  | status : TaskField
  | video_filepath : TaskField
  | audio_filepath : TaskField
  | video_hash : TaskField
  | audio_hash : TaskField
  | retries : TaskField
  | error_message : TaskField
  | added_date : TaskField
  | last_updated_date : TaskField
deriving DecidableEq, Repr

/-- The SQL name of each column. -/
def fieldName : TaskField → Chars
  | TaskField.id => strL "id"
  | TaskField.youtube_id => strL "youtube_id"
  | TaskField.video_url => strL "video_url"
  | TaskField.suggested_filename_base => strL "suggested_filename_base"
  | TaskField.final_video_filename => strL "final_video_filename"
  | TaskField.final_audio_filename => strL "final_audio_filename"
  | TaskField.status => strL "status"
  | TaskField.video_filepath => strL "video_filepath"
  | TaskField.audio_filepath => strL "audio_filepath"
  | TaskField.video_hash => strL "video_hash"
  | TaskField.audio_hash => strL "audio_hash"
  | TaskField.retries => strL "retries"
  | TaskField.error_message => strL "error_message"
  | TaskField.added_date => strL "added_date"
  | TaskField.last_updated_date => strL "last_updated_date"

/-- All columns, in `PRAGMA table_info` order. -/
def allFields : List TaskField :=
  [TaskField.id, TaskField.youtube_id, TaskField.video_url, TaskField.suggested_filename_base, TaskField.final_video_filename, TaskField.final_audio_filename, TaskField.status, TaskField.video_filepath, TaskField.audio_filepath, TaskField.video_hash, TaskField.audio_hash, TaskField.retries, TaskField.error_message, TaskField.added_date, TaskField.last_updated_date]

/-- Resolve a column name, as the SQL layer does. -/
def colOfName (k : Chars) : Option TaskField :=
  allFields.find? (fun f => fieldName f = k)

/-- Read a cell by field. -/
def getF (t : Task) : TaskField → DBValue
  | TaskField.id => t.id
  | TaskField.youtube_id => t.youtube_id
  | TaskField.video_url => t.video_url
  | TaskField.suggested_filename_base => t.suggested_filename_base
  | TaskField.final_video_filename => t.final_video_filename
  | TaskField.final_audio_filename => t.final_audio_filename
  | TaskField.status => t.status
  | TaskField.video_filepath => t.video_filepath
  | TaskField.audio_filepath => t.audio_filepath
  | TaskField.video_hash => t.video_hash
  | TaskField.audio_hash => t.audio_hash
  | TaskField.retries => t.retries
  | TaskField.error_message => t.error_message
  | TaskField.added_date => t.added_date
  | TaskField.last_updated_date => t.last_updated_date

/-- Write a cell by field. -/
def setF (t : Task) : TaskField → DBValue → Task
  | TaskField.id, v => { t with id := v }
  | TaskField.youtube_id, v => { t with youtube_id := v }
  | TaskField.video_url, v => { t with video_url := v }
  | TaskField.suggested_filename_base, v => { t with suggested_filename_base := v }
  | TaskField.final_video_filename, v => { t with final_video_filename := v }
  | TaskField.final_audio_filename, v => { t with final_audio_filename := v }
  | TaskField.status, v => { t with status := v }
  | TaskField.video_filepath, v => { t with video_filepath := v }
  | TaskField.audio_filepath, v => { t with audio_filepath := v }
  | TaskField.video_hash, v => { t with video_hash := v }
  | TaskField.audio_hash, v => { t with audio_hash := v }
  | TaskField.retries, v => { t with retries := v }
  | TaskField.error_message, v => { t with error_message := v }
  | TaskField.added_date, v => { t with added_date := v }
  | TaskField.last_updated_date, v => { t with last_updated_date := v }

/-- Read a row's cell by column name (`dict(zip(columns, row))` access). -/
def getCol (t : Task) (k : Chars) : DBValue :=
  match colOfName k with
  | some f => getF t f
  | none => DBValue.null

/-- Write a row's cell by column name (one `SET col = ?` assignment); a name
that is not a column leaves the row unchanged. -/
def setCol (t : Task) (k : Chars) (v : DBValue) : Task :=
  match colOfName k with
  | some f => setF t f v
  | none => t

/-! ## `_extract_youtube_id` (run.py:1586-1595)

`re.search(r"(?:v=|youtu\.be/|embed/|watch\?v=)([0-9A-Za-z_-]{11}).*", url)`:
scan positions left to right; at each position try the four alternatives in
order; a match requires the alternative's literal text followed immediately by
eleven characters of the class `[0-9A-Za-z_-]` (the capture group); trailing
`.*` always matches. -/

/-- Membership in the regex character class `[0-9A-Za-z_-]`. -/
def isTokenChar (c : Char) : Bool :=
  (('0' ≤ c && c ≤ '9') || ('A' ≤ c && c ≤ 'Z') || ('a' ≤ c && c ≤ 'z')
    || c = '_' || c = '-')

/-- If `p` is a literal prefix of `s`, return the remainder of `s`. -/
def matchLit : Chars → Chars → Option Chars
  | [], s => some s
  | _ :: _, [] => none
  | a :: p, b :: s => if a = b then matchLit p s else none

/-- Take exactly `n` leading characters, all of which must satisfy
`isTokenChar` (the `{11}` counted repetition of the capture group). -/
def grabTok : Nat → Chars → Option Chars
  | 0, _ => some []
  | _ + 1, [] => none
  | n + 1, c :: s =>
    if isTokenChar c then (grabTok n s).map (fun r => c :: r) else none

/-- Attempt a match of the whole pattern anchored at the current position:
the four alternatives in regex order, each followed by the 11-char group. -/
def tryHere (s : Chars) : Option Chars :=
  ((matchLit (strL "v=") s).bind (grabTok 11)).orElse fun _ =>
  ((matchLit (strL "youtu.be/") s).bind (grabTok 11)).orElse fun _ =>
  ((matchLit (strL "embed/") s).bind (grabTok 11)).orElse fun _ =>
  ((matchLit (strL "watch?v=") s).bind (grabTok 11))

/-- `re.search` semantics: the leftmost position with a match wins; on no
match anywhere, `_extract_youtube_id` returns the empty string. -/
def extract_youtube_id : Chars → Chars
  | [] => []
  | c :: rest =>
    match tryHere (c :: rest) with
    | some tok => tok
    | none => extract_youtube_id rest

/-! ## `helpers.safe_filename`

Modelled from the spec: `helpers.safe_filename` is code of this repository
(pytubefix) that is not under `src/`; §4.1 of the spec describes it as
stripping characters illegal on common filesystems (`| , / \ : * ? < > "`)
and truncating the result to `max_length` code units. -/

/-- The spec's list of characters illegal on common filesystems. -/
def illegalFilenameChar (c : Char) : Bool :=
  c ∈ ['|', ',', '/', '\\', ':', '*', '?', '<', '>', '"']

/-- Modelled from the spec: `helpers.safe_filename(s, max_length)` removes the
illegal characters and truncates to `max_length` code units. -/
def safe_filename (s : Chars) (max_length : Nat) : Chars :=
  (s.filter (fun c => ! illegalFilenameChar c)).take max_length

/-! ## `_get_comparable_name` (run.py:378-404)

NFKC normalisation, ideographic-space replacement, then `safe_filename`.
Unicode NFKC itself lives in Python's `unicodedata`, outside this repository;
it is modelled from the spec ("Unicode canonical-compatibility normalization")
as a character-wise compatibility mapping `nfkcChar : Char → Chars`, applied
pointwise.  Theorems about `get_comparable_name` assume the defining property
of a normal form: characters produced by the mapping are themselves
normalisation-fixed. -/

/-- Pointwise application of a character-wise NFKC compatibility mapping. -/
def nfkcNormalize (nfkcChar : Char → Chars) (s : Chars) : Chars :=
  s.flatMap nfkcChar

/-- Replace the ideographic space (U+3000) with an ordinary space (step 2 of
`_get_comparable_name`). -/
def replaceIdeographicSpace (s : Chars) : Chars :=
  s.map (fun c => if c = '　' then ' ' else c)

/-- `_get_comparable_name`: NFKC normalisation, then U+3000 → space, then
`helpers.safe_filename` with the configured maximum length. -/
def get_comparable_name (nfkcChar : Char → Chars) (max_file_length : Nat)
    (original_string : Chars) : Chars :=
  safe_filename (replaceIdeographicSpace (nfkcNormalize nfkcChar original_string))
    max_file_length

/-! ## Path and filename helpers used by the orchestrator -/

/-- `os.path.join(dir, name)` for a directory without a trailing slash. -/
def joinPath (dir name : Chars) : Chars := dir ++ '/' :: name

/-- Python slicing `s[:n]` where `n` may be negative (`s[:-k]` drops the last
`k` characters); the stop index is clamped to `[0, len s]`. -/
def pySliceTo (s : Chars) (n : Int) : Chars :=
  if 0 ≤ n then s.take n.toNat else s.take (s.length - min s.length n.natAbs)

/-- Index of the last `'.'` in `l`, if any. -/
def lastDotIdx (l : Chars) : Option Nat :=
  (l.reverse.findIdx? (fun c => c = '.')).map (fun i => l.length - 1 - i)

/-- `os.path.splitext(s)[0]`: everything before the last dot, except that
leading dots never start an extension (`splitext(".mp3") = (".mp3", "")`). -/
def splitextBase (s : Chars) : Chars :=
  let lead := (s.takeWhile (fun c => c = '.')).length
  match lastDotIdx (s.drop lead) with
  | none => s
  | some j => s.take (lead + j)

/-- Python `f"{v}"` display of a cell value (`None` prints as `"None"`). -/
def pyStr (v : DBValue) : Chars :=
  match v with
  | DBValue.null => strL "None"
  | DBValue.int n => strL (toString n)
  | DBValue.text s => s

/-! ## Exceptions -/

/-- The exception kinds the orchestrator distinguishes: `BotDetection`, the
other pytubefix errors (`RegexMatchError`, `VideoUnavailable`,
`LiveStreamError`, `ExtractError`), and everything else (`Exception`).  Each
carries its message (`str(e)`). -/
inductive PyErr where
  | botDetection : Chars → PyErr
  | pytubefixError : Chars → PyErr
  | generic : Chars → PyErr
deriving DecidableEq, Repr

/-- `str(e)`: the message of an exception. -/
def PyErr.msg : PyErr → Chars
  | PyErr.botDetection m => m
  | PyErr.pytubefixError m => m
  | PyErr.generic m => m

/-- `os.path.join`/`os.path.splitext` applied to a non-string cell raise
`TypeError`; extracting the string of a `text` cell succeeds. -/
def dbText (v : DBValue) : Except PyErr Chars :=
  match v with
  | DBValue.text s => Except.ok s
  | _ => Except.error (PyErr.generic (strL "TypeError"))

/-! ## `YouTubeTaskManager` store operations (run.py:1524-1757) -/

/-- The configuration captured by `YouTubeTaskManager.__init__`. -/
structure TaskManagerCfg where
  video_destination_directory : Chars
  audio_destination_directory : Chars
  video_extension : Chars
  audio_extension : Chars
deriving Repr

/-- The filesystem, as the set of paths for which `os.path.exists` is true. -/
abbrev FileSys := Chars → Bool

/-- Mark a path as present or absent on disk. -/
def fsSet (fs : FileSys) (p : Chars) (b : Bool) : FileSys :=
  fun q => if q = p then b else fs q

/-- `task_exists` (run.py:1597-1600): `SELECT 1 FROM tasks WHERE youtube_id = ?`. -/
def task_exists (st : Store) (youtube_id : Chars) : Bool :=
  st.any (fun t => t.youtube_id = DBValue.text youtube_id)

/-- `get_task` (run.py:1602-1611): first row with the given `youtube_id`. -/
def get_task (st : Store) (youtube_id : Chars) : Option Task :=
  st.find? (fun t => t.youtube_id = DBValue.text youtube_id)

/-- Number of rows holding the given external id (`store.count` of §8). -/
def countTasks (st : Store) (youtube_id : Chars) : Nat :=
  st.countP (fun t => t.youtube_id = DBValue.text youtube_id)

/-- Apply the recognised updates to one row: fold the `SET` assignments, then
overwrite `last_updated_date` with the present timestamp (run.py:1624). -/
def applyUpdates (kvs : List (Chars × DBValue)) (now : Chars) (t : Task) : Task :=
  setCol ((kvs.filter (fun p => p.1 ≠ strL "last_updated_date")).foldl
      (fun r p => setCol r p.1 p.2) t)
    (strL "last_updated_date") (DBValue.text now)

/-- `update_task` (run.py:1613-1636): keep only keys that are columns of the
table; an empty remainder is a no-op (logged as a warning); otherwise stamp
`last_updated_date` and update every row whose `youtube_id` matches. -/
def update_task (st : Store) (youtube_id : Chars) (updates : List (Chars × DBValue))
    (now : Chars) : Store :=
  let filtered := updates.filter (fun p => p.1 ∈ tableColumns)
  if filtered = [] then st
  else
    st.map (fun t =>
      if t.youtube_id = DBValue.text youtube_id then applyUpdates filtered now t
      else t)

/-- `_filename_collision_exists` (run.py:1717-1751): the base collides if the
video name exists in the video directory, the audio name exists in the audio
directory, or some task row already claims either final name. -/
def filename_collision_exists (tm : TaskManagerCfg) (fs : FileSys) (st : Store)
    (filename_base : Chars) : Bool :=
  let video_name := filename_base ++ '.' :: tm.video_extension
  let audio_name := filename_base ++ '.' :: tm.audio_extension
  let video_exists := fs (joinPath tm.video_destination_directory video_name)
  let audio_exists := fs (joinPath tm.audio_destination_directory audio_name)
  if video_exists || audio_exists then true
  else
    st.any (fun t =>
      t.final_video_filename = DBValue.text video_name
        || t.final_audio_filename = DBValue.text audio_name)

/-- The candidate built for collision attempt `counter` (run.py:1664-1675):
`_counter` is appended to the suggested base, truncating the base first when
base plus suffix would exceed `max_file_length` (Python slice semantics, so a
negative stop index drops characters from the end). -/
def suffixedName (base : Chars) (counter : Nat) (max_file_length : Nat) : Chars :=
  let suffix := '_' :: strL (toString counter)
  if base.length + suffix.length > max_file_length then
    pySliceTo base ((max_file_length : Int) - (suffix.length : Int)) ++ suffix
  else
    base ++ suffix

/-- The `while _filename_collision_exists(...)` loop of `add_task`
(run.py:1663-1683).  The Python loop counts `counter` upward and gives up once
`counter > 999`; here the structural argument `tries` counts the remaining
suffix attempts downward, with `counter = 1000 - tries`, so the call with
`tries = 999` tests the bare base and then the candidates `_1` … `_999` before
giving up (`none`). -/
def uniqueNameLoop (tm : TaskManagerCfg) (fs : FileSys) (st : Store) (base : Chars)
    (max_file_length : Nat) : Nat → Chars → Option Chars
  | 0, cand => if filename_collision_exists tm fs st cand then none else some cand
  | tries + 1, cand =>
    if filename_collision_exists tm fs st cand then
      uniqueNameLoop tm fs st base max_file_length tries
        (suffixedName base (1000 - (tries + 1)) max_file_length)
    else some cand

/-- The row inserted by `add_task` (run.py:1687-1702); `id` is autoincrement,
modelled as one more than the current row count (rows are never deleted). -/
def newTaskRow (tm : TaskManagerCfg) (st : Store) (youtube_id video_url : Chars)
    (suggested final_base : Chars) (now : Chars) : Task :=
  { id := DBValue.int (st.length + 1)
    youtube_id := DBValue.text youtube_id
    video_url := DBValue.text video_url
    suggested_filename_base := DBValue.text suggested
    final_video_filename := DBValue.text (final_base ++ '.' :: tm.video_extension)
    final_audio_filename := DBValue.text (final_base ++ '.' :: tm.audio_extension)
    status := DBValue.text (strL "pending")
    video_filepath := DBValue.null
    audio_filepath := DBValue.null
    video_hash := DBValue.null
    audio_hash := DBValue.null
    retries := DBValue.int 0
    error_message := DBValue.null
    added_date := DBValue.text now
    last_updated_date := DBValue.text now }

/-- `add_task` (run.py:1638-1715): extract the id (hard skip on failure),
return the existing row unchanged if one exists, otherwise resolve a
collision-free filename base (or give up after the bounded number of
attempts), insert the row with status `pending`, and return it. -/
def add_task (tm : TaskManagerCfg) (fs : FileSys) (st : Store)
    (video_url video_title : Chars) (max_file_length : Nat) (now : Chars) :
    Store × Option Task :=
  let youtube_id := extract_youtube_id video_url
  if youtube_id = [] then (st, none)
  else if task_exists st youtube_id then (st, get_task st youtube_id)
  else
    let suggested_filename_base := safe_filename video_title max_file_length
    match uniqueNameLoop tm fs st suggested_filename_base max_file_length 999
        suggested_filename_base with
    | none => (st, none)
    | some final_filename_base =>
      let st' := st ++ [newTaskRow tm st youtube_id video_url
        suggested_filename_base final_filename_base now]
      (st', get_task st' youtube_id)

/-! ## Orchestrator state, configuration and external collaborators -/

/-- The mutable world of the orchestrator: the task store and the filesystem. -/
structure World where
  store : Store
  fs : FileSys

/-- The `YouTubeDownloader` configuration fields read by the per-video routine
and the batch driver (`__init__`, run.py:58-177).  `now` stands for
`datetime.now().isoformat()`. -/
structure Config where
  dry_run : Bool
  download_captions : Bool
  download_video : Bool
  download_audio : Bool
  reconvert_media : Bool
  keep_original_video : Bool
  keep_original_audio : Bool
  video_destination_directory : Chars
  audio_destination_directory : Chars
  video_extension : Chars
  audio_extension : Chars
  audio_mime_type : Chars
  max_file_length : Nat
  now : Chars

/-- The task manager shares the downloader's directories and extensions
(run.py:167-172). -/
def tmOf (cfg : Config) : TaskManagerCfg :=
  { video_destination_directory := cfg.video_destination_directory
    audio_destination_directory := cfg.audio_destination_directory
    video_extension := cfg.video_extension
    audio_extension := cfg.audio_extension }

/-- Outcomes of the external pytubefix / moviepy calls made while processing
one video.  Each `Except` value is the outcome of the corresponding call site
in `_download_youtube_video`; `Bool` fields say whether a stream query found a
stream. -/
structure VideoOracle where
  /-- `AsyncYouTube(...)` + `check_availability()` (run.py:430-437). -/
  init : Except PyErr Unit
  /-- `await yt.title()`. -/
  titleR : Except PyErr Chars
  /-- `await yt.length()`. -/
  lengthR : Except PyErr Int
  /-- `await yt.captions()`: the available caption track codes. -/
  captionsR : Except PyErr (List Chars)
  /-- fetching and saving one caption track (run.py:497-507). -/
  captionSave : Chars → Except PyErr Unit
  /-- `await yt.streams()` (run.py:523 and 636). -/
  streamsR : Except PyErr Unit
  /-- the filtered/ordered video stream query found a stream (run.py:524-533). -/
  videoSpecific : Bool
  /-- `get_highest_resolution` found a stream (run.py:540-542). -/
  videoHighest : Bool
  /-- `video_stream.download(...)` + `shutil.move` (run.py:568-580). -/
  videoDownload : Except PyErr Unit
  /-- `VideoFileClip(remote).audio` extraction: `ok b` with `b` = an audio
  track was present; `error` = the caught extraction failure (run.py:613-626). -/
  audioExtract : Except PyErr Bool
  /-- the mime/bitrate-filtered audio stream query found a stream. -/
  audioSpecific : Bool
  /-- `get_audio_only(subtype=...)` found a stream. -/
  audioOnlySub : Bool
  /-- `get_audio_only()` found a stream. -/
  audioOnlyAny : Bool
  /-- `audio_stream.download(...)` + `AudioFileClip(temp)` (run.py:682-687). -/
  audioDownload : Except PyErr Unit
  /-- `audio_clip.write_audiofile(...)` (run.py:700-704). -/
  audioWrite : Except PyErr Unit
  /-- the existing merged file carries an audio track (run.py:775-791). -/
  mergedHasAudio : Except PyErr Bool
  /-- loading both clips and `write_videofile(...)` (run.py:800-830). -/
  mergeWrite : Except PyErr Unit
  /-- content digest of an existing file (`_calculate_file_hash`, happy path). -/
  hashFile : Chars → Chars

/-- The behaviours of the external collaborators, per video URL. -/
abbrev Oracle := Chars → VideoOracle

/-- `_calculate_file_hash` (run.py:256-282): empty digest when the file does
not exist (or on a read error, folded into `hashFile`). -/
def calc_file_hash (ov : VideoOracle) (fs : FileSys) (p : Chars) : Chars :=
  if fs p then ov.hashFile p else []

/-- Mark the task `failed` with the given error message
(`{"status": "failed", "error_message": str(e)}`). -/
def failTask (cfg : Config) (w : World) (youtube_id msg : Chars) : World :=
  { w with store := (update_task w.store youtube_id
      [(strL "status", DBValue.text (strL "failed")),
       (strL "error_message", DBValue.text msg)] cfg.now) }

/-- Set the task's status alone. -/
def setStatus (cfg : Config) (w : World) (youtube_id status : Chars) : World :=
  { w with store := (update_task w.store youtube_id
      [(strL "status", DBValue.text status)] cfg.now) }

/-- Python exceptions do not roll back state: a raise carries the world at the
raise point.  `ok (b, w)` models `return b`. -/
abbrev RoutineRes := Except (PyErr × World) (Bool × World)

/-- Outcome of one phase of the routine: fall through to the next phase, or
`return b` out of the whole routine. -/
inductive StepRes where
  | next : World → StepRes
  | exit : Bool → World → StepRes

/-! ## `_download_youtube_video` (run.py:406-906), phase by phase -/

/-- Caption export (run.py:485-507): save every available track next to the
final video name; a failing track is logged and skipped. -/
def captionsPhase (ov : VideoOracle) (cfg : Config) (videoNameDisplay : Chars)
    (codes : List Chars) (w : World) : World :=
  codes.foldl (fun wAcc code =>
    let path := joinPath cfg.video_destination_directory
      (videoNameDisplay ++ '.' :: (code ++ strL ".txt"))
    match ov.captionSave code with
    | Except.ok _ => { wAcc with fs := fsSet wAcc.fs path true }
    | Except.error _ => wAcc) w

/-- Video acquisition (run.py:514-593): if the final video file is absent,
query the specific stream, fall back to highest resolution, fail the task when
neither exists, otherwise download to the temporary folder and move into
place. -/
def videoPhase (ov : VideoOracle) (cfg : Config) (youtube_id vfnS remote_video : Chars)
    (w : World) : Except (PyErr × World) StepRes :=
  if cfg.download_video then
    if ¬ w.fs remote_video then
      match ov.streamsR with
      | Except.error e => Except.error (e, w)
      | Except.ok _ =>
        let found := if ov.videoSpecific then true else ov.videoHighest
        if ¬ found then
          Except.ok (StepRes.exit false
            (failTask cfg w youtube_id (strL "No suitable video stream found")))
        else
          match ov.videoDownload with
          | Except.ok _ =>
            let temp := joinPath (strL ".") vfnS
            Except.ok (StepRes.next
              { w with fs := (fsSet (fsSet (fsSet w.fs temp true) temp false)
                  remote_video true) })
          | Except.error e =>
            Except.ok (StepRes.exit false (failTask cfg w youtube_id e.msg))
    else Except.ok (StepRes.next w)
  else Except.ok (StepRes.next w)

/-- Audio acquisition (run.py:595-753): prefer extracting from the downloaded
video; otherwise fall through the three stream queries; download, convert to
the destination format, and keep or remove the intermediate file. -/
def audioPhase (ov : VideoOracle) (cfg : Config)
    (youtube_id remote_video remote_audio temp_audio original_audio_filename : Chars)
    (w : World) : Except (PyErr × World) StepRes :=
  if cfg.download_audio then
    if ¬ w.fs remote_audio then
      let clipFromVideo :=
        if w.fs remote_video then
          match ov.audioExtract with
          | Except.ok b => b
          | Except.error _ => false
        else false
      let afterStream : Except (PyErr × World) (Option (Bool × World)) :=
        if ¬ clipFromVideo then
          match ov.streamsR with
          | Except.error e => Except.error (e, w)
          | Except.ok _ =>
            let found :=
              if ov.audioSpecific then true
              else if ov.audioOnlySub then true
              else ov.audioOnlyAny
            if ¬ found then
              Except.ok (some (false,
                failTask cfg w youtube_id (strL "No suitable audio stream found")))
            else
              match ov.audioDownload with
              | Except.ok _ =>
                Except.ok (none)
              | Except.error e =>
                Except.ok (some (false, failTask cfg w youtube_id e.msg))
        else Except.ok (none)
      match afterStream with
      | Except.error ew => Except.error ew
      | Except.ok (some bw) => Except.ok (StepRes.exit bw.1 bw.2)
      | Except.ok none =>
        -- a clip is now in hand: either extracted from the video file, or the
        -- downloaded stream was opened (which wrote the temporary audio file)
        let w1 := if clipFromVideo then w
          else { w with fs := fsSet w.fs temp_audio true }
        match ov.audioWrite with
        | Except.ok _ =>
          let w2 := { w1 with fs := fsSet w1.fs remote_audio true }
          if cfg.keep_original_audio ∧ cfg.audio_mime_type ≠ cfg.audio_extension
              ∧ w2.fs temp_audio then
            Except.ok (StepRes.next
              { w2 with fs := (fsSet (fsSet w2.fs temp_audio false)
                  (joinPath cfg.audio_destination_directory original_audio_filename)
                  true) })
          else if w2.fs temp_audio then
            Except.ok (StepRes.next { w2 with fs := fsSet w2.fs temp_audio false })
          else Except.ok (StepRes.next w2)
        | Except.error e =>
          Except.ok (StepRes.exit false (failTask cfg w1 youtube_id e.msg))
    else Except.ok (StepRes.next w)
  else Except.ok (StepRes.next w)

/-- Merge (run.py:756-878): when both artifacts exist and reconversion is on,
skip (and mark completed) if the destination already carries audio, otherwise
mux into a temporary name, optionally delete the pre-merge video, and move the
result into place. -/
def mergePhase (ov : VideoOracle) (cfg : Config)
    (youtube_id vfnS audioBase remote_video remote_audio : Chars)
    (w : World) : Except (PyErr × World) StepRes :=
  if cfg.reconvert_media ∧ w.fs remote_video ∧ w.fs remote_audio then
    let merged_temp := audioBase ++ strL "_merged." ++ cfg.video_extension
    let final_after :=
      if cfg.keep_original_video then
        joinPath cfg.video_destination_directory merged_temp
      else joinPath cfg.video_destination_directory vfnS
    let alreadyDone : Bool :=
      if w.fs final_after then
        match ov.mergedHasAudio with
        | Except.ok b => b
        | Except.error _ => false
      else false
    if alreadyDone then
      Except.ok (StepRes.exit true (setStatus cfg w youtube_id (strL "completed")))
    else
      match ov.mergeWrite with
      | Except.ok _ =>
        let fs1 := fsSet w.fs merged_temp true
        let fs2 :=
          if ¬ cfg.keep_original_video ∧ fs1 remote_video then
            fsSet fs1 remote_video false
          else fs1
        Except.ok (StepRes.next
          { w with fs := fsSet (fsSet fs2 merged_temp false) final_after true })
      | Except.error e =>
        Except.ok (StepRes.exit false (failTask cfg w youtube_id e.msg))
  else Except.ok (StepRes.next w)

/-- Finalisation (run.py:880-906): compute the digests of whichever artifacts
were requested and mark the task `completed` with paths and hashes. -/
def finalizePhase (ov : VideoOracle) (cfg : Config)
    (youtube_id remote_video remote_audio : Chars) (w : World) : World :=
  let video_hash :=
    if cfg.download_video then DBValue.text (calc_file_hash ov w.fs remote_video)
    else DBValue.null
  let audio_hash :=
    if cfg.download_audio then DBValue.text (calc_file_hash ov w.fs remote_audio)
    else DBValue.null
  { w with store := (update_task w.store youtube_id
      [(strL "status", DBValue.text (strL "completed")),
       (strL "video_filepath",
         if cfg.download_video then DBValue.text remote_video else DBValue.null),
       (strL "audio_filepath",
         if cfg.download_audio then DBValue.text remote_audio else DBValue.null),
       (strL "video_hash", video_hash),
       (strL "audio_hash", audio_hash)] cfg.now) }

/-- Steps 5-8 of `_download_youtube_video` (run.py:509-906): video, audio and
merge phases, then finalisation, starting from the world after caption
export. -/
def routinePhases (ov : VideoOracle) (cfg : Config) (youtube_id : Chars)
    (task1 : Task) (audioFull audioBase : Chars) (w3 : World) : RoutineRes :=
  -- run.py:509-511 (join raises on a non-text cell)
  match dbText task1.final_video_filename with
  | Except.error e => Except.error (e, w3)
  | Except.ok vfnS =>
    let remote_video := joinPath cfg.video_destination_directory vfnS
    match videoPhase ov cfg youtube_id vfnS remote_video w3 with
    | Except.error ew => Except.error ew
    | Except.ok (StepRes.exit b w4) => Except.ok (b, w4)
    | Except.ok (StepRes.next w4) =>
      -- run.py:595-603
      let original_audio_filename := audioBase ++ '.' :: cfg.audio_mime_type
      let remote_audio := joinPath cfg.audio_destination_directory audioFull
      let temp_audio := joinPath (strL ".") original_audio_filename
      match audioPhase ov cfg youtube_id remote_video remote_audio temp_audio
          original_audio_filename w4 with
      | Except.error ew => Except.error ew
      | Except.ok (StepRes.exit b w5) => Except.ok (b, w5)
      | Except.ok (StepRes.next w5) =>
        match mergePhase ov cfg youtube_id vfnS audioBase remote_video
            remote_audio w5 with
        | Except.error ew => Except.error ew
        | Except.ok (StepRes.exit b w6) => Except.ok (b, w6)
        | Except.ok (StepRes.next w6) =>
          Except.ok (true, finalizePhase ov cfg youtube_id remote_video
            remote_audio w6)

/-- Steps after the `in_progress` mark of `_download_youtube_video`
(run.py:467-906): the `length` await, the dry-run short-circuit, filename
extraction, caption export and the phases. -/
def routineBody (ov : VideoOracle) (cfg : Config) (youtube_id : Chars)
    (task1 : Task) (w2 : World) : RoutineRes :=
  match ov.lengthR with                            -- run.py:468
  | Except.error e => Except.error (e, w2)
  | Except.ok _ =>
    if cfg.dry_run then                            -- run.py:470-475
      Except.ok (true,
        { w2 with store := (update_task w2.store youtube_id
            [(strL "status", DBValue.text (strL "completed")),
             (strL "error_message", DBValue.text (strL "Dry run"))]
            cfg.now) })
    else
      -- run.py:477-482 (splitext raises on a non-text cell)
      match dbText task1.final_audio_filename with
      | Except.error e => Except.error (e, w2)
      | Except.ok audioFull =>
        let audioBase := splitextBase audioFull
        let afterCaptions :=                       -- run.py:485-507
          if cfg.download_captions then
            match ov.captionsR with
            | Except.error e => Except.error (e, w2)
            | Except.ok codes =>
              Except.ok (captionsPhase ov cfg
                (pyStr task1.final_video_filename) codes w2)
          else Except.ok w2
        match afterCaptions with
        | Except.error ew => Except.error ew
        | Except.ok w3 =>
          routinePhases ov cfg youtube_id task1 audioFull audioBase w3

/-- `_download_youtube_video` (run.py:406-906).  Returns `ok (b, w)` for
`return b`, `error (e, w)` for an uncaught raise; `w` is the world reached. -/
def download_youtube_video (o : Oracle) (cfg : Config) (w : World) (url : Chars) :
    RoutineRes :=
  let ov := o url
  let youtube_id := extract_youtube_id url
  if youtube_id = [] then Except.ok (false, w)     -- run.py:417-420
  else
    let task := get_task w.store youtube_id
    let isCompleted : Bool :=
      match task with
      | some t => t.status = DBValue.text (strL "completed")
      | none => false
    if isCompleted then Except.ok (true, w)        -- run.py:422-427, skip-on-sight
    else
      match ov.init with                           -- run.py:429-457
      | Except.error e =>
        let w1 :=
          match task with
          | some _ => failTask cfg w youtube_id e.msg
          | none => w
        Except.error (e, w1)
      | Except.ok _ =>
        match ov.titleR with                       -- run.py:459
        | Except.error e => Except.error (e, w)
        | Except.ok video_title =>
          match task with                          -- run.py:460-463
          | some task1 =>
            -- run.py:465: mark in_progress
            routineBody ov cfg youtube_id task1
              (setStatus cfg w youtube_id (strL "in_progress"))
          | none =>
            match add_task (tmOf cfg) w.fs w.store url video_title
                cfg.max_file_length cfg.now with
            | (st1, none) => Except.ok (false, { w with store := st1 })
            | (st1, some task1) =>
              -- run.py:465: mark in_progress
              routineBody ov cfg youtube_id task1
                (setStatus cfg { w with store := st1 } youtube_id
                  (strL "in_progress"))

/-! ## `_retry_function` (run.py:284-320)

The decorator retries the whole routine `retries` times (installed with
`retries=3, delay=5`, run.py:175-177) and, after exhausting the attempts,
raises a fresh generic `Exception` with the last error message.  State written
by failed attempts persists. -/

/-- The retry loop; `err` is the message of the previous attempt's failure. -/
def retryLoop (f : World → RoutineRes) : Nat → World → Chars → RoutineRes
  | 0, w, err =>
    Except.error (PyErr.generic (strL "All retries failed: " ++ err), w)
  | n + 1, w, _ =>
    match f w with
    | Except.ok r => Except.ok r
    | Except.error (e, w') => retryLoop f n w' e.msg

/-- `_retry_function(retries, delay)(func)`. -/
def retry_function (retries : Nat) (f : World → RoutineRes) (w : World) : RoutineRes :=
  retryLoop f retries w []

/-! ## `_preprocess_videos_from_list` (run.py:908-1018) -/

/-- An element of the iterable handed to the batch driver: a URL string, a
`YouTube`/`AsyncYouTube` object (contributing its `watch_url`), or a value of
any other type (logged and skipped). -/
inductive VideoItem where
  | urlStr : Chars → VideoItem
  | ytObj : Chars → VideoItem
  | invalid : VideoItem

/-- run.py:922-933: resolve an item to a URL, or skip it. -/
def resolveItem : VideoItem → Option Chars
  | VideoItem.urlStr s => some s
  | VideoItem.ytObj watch_url => some watch_url
  | VideoItem.invalid => none

/-- The tail of the pre-check block once a task row is in hand
(run.py:958-992): existence probes on the destination paths decide whether
the item is skipped (status `completed`) or re-queued (status `pending`). -/
def precheckRest (cfg : Config) (w1 : World) (youtube_id : Chars)
    (task1 : Task) : Except (PyErr × World) (World × Bool) :=
  match dbText task1.final_video_filename with     -- run.py:958-963
  | Except.error e => Except.error (e, w1)
  | Except.ok vfnS =>
    match dbText task1.final_audio_filename with
    | Except.error e => Except.error (e, w1)
    | Except.ok afnS =>
      let remote_video := joinPath cfg.video_destination_directory vfnS
      let remote_audio := joinPath cfg.audio_destination_directory afnS
      let video_exists := w1.fs remote_video
      let audio_exists := w1.fs remote_audio
      let should_skip :=                           -- run.py:971-982
        if ¬ cfg.reconvert_media then
          if cfg.download_video ∧ cfg.download_audio then
            video_exists ∧ audio_exists
          else if cfg.download_video then video_exists
          else if cfg.download_audio then audio_exists
          else false
        else false
      if should_skip then                          -- run.py:984-989
        Except.ok (setStatus cfg w1 youtube_id (strL "completed"), true)
      else                                         -- run.py:990-992
        Except.ok (setStatus cfg w1 youtube_id (strL "pending"), false)

/-- The body of the pre-check `try:` block (run.py:942-992).  `ok (w, skip)`
falls out of the block normally (`skip` = the body executed `continue`);
`error (e, w)` is an exception escaping the block, caught by the driver. -/
def precheckBody (o : Oracle) (cfg : Config) (w : World) (url youtube_id : Chars)
    (task : Option Task) : Except (PyErr × World) (World × Bool) :=
  match (o url).titleR with                        -- run.py:944-945
  | Except.error e => Except.error (e, w)
  | Except.ok video_title =>
    match task with                                -- run.py:947-956
    | some task1 => precheckRest cfg w youtube_id task1
    | none =>
      match add_task (tmOf cfg) w.fs w.store url video_title
          cfg.max_file_length cfg.now with
      | (st1, none) =>                             -- run.py:952-956: continue
        Except.ok ({ w with store := st1 }, true)
      | (st1, some task1) =>
        precheckRest cfg { w with store := st1 } youtube_id task1

/-- One iteration of the batch driver's loop (run.py:921-1018), over an
arbitrary per-video download function `dl` (the driver calls the retry-wrapped
`_download_youtube_video` attribute).  Every exception of the pre-check block
and of `dl` is caught here; the loop always continues to the next item. -/
def preprocessItem (o : Oracle) (cfg : Config)
    (dl : Chars → World → RoutineRes) (w : World) (item : VideoItem) : World :=
  match resolveItem item with
  | none => w                                      -- run.py:928-933: continue
  | some url =>
    let youtube_id := extract_youtube_id url
    if youtube_id = [] then w                      -- run.py:935-938: continue
    else
      let task := get_task w.store youtube_id      -- run.py:940
      match precheckBody o cfg w url youtube_id task with
      | Except.ok (w', true) => w'                 -- pre-check said skip
      | Except.ok (w', false) =>
        (match dl url w' with                      -- run.py:1008-1018
         | Except.ok (_, w2) => w2
         | Except.error (_, w2) => w2)             -- BotDetection / Exception: caught
      | Except.error (_, w') =>                    -- run.py:994-1003: caught
        match task with
        | some _ =>
          (match dl url (failTask cfg w' youtube_id (strL "Pre-check failed")) with
           | Except.ok (_, w2) => w2
           | Except.error (_, w2) => w2)
        | none =>
          (match dl url w' with
           | Except.ok (_, w2) => w2
           | Except.error (_, w2) => w2)

/-- `_preprocess_videos_from_list`: fold the loop body over the item list,
also counting the items visited. -/
def preprocess_videos_from_list (o : Oracle) (cfg : Config)
    (dl : Chars → World → RoutineRes) (w : World) (videos : List VideoItem) :
    World × Nat :=
  videos.foldl (fun acc item => (preprocessItem o cfg dl acc.1 item, acc.2 + 1))
    (w, 0)

/-- The driver as wired in the source: the per-video function is the
retry-wrapped `_download_youtube_video` with `retries=3` (run.py:175-177). -/
def preprocessMain (o : Oracle) (cfg : Config) (w : World)
    (videos : List VideoItem) : World × Nat :=
  preprocess_videos_from_list o cfg
    (fun url w' => retry_function 3 (fun w'' => download_youtube_video o cfg w'' url) w')
    w videos

/-! # Theorems -/

/-! ## Lemmas about `extract_youtube_id` -/

theorem matchLit_append (p s : Chars) : matchLit p (p ++ s) = some s := by
  induction p with
  | nil => rfl
  | cons a p ih => simp [matchLit, ih]

theorem grabTok_of_valid (t : Chars) (hlen : t.length = 11)
    (hall : ∀ c ∈ t, isTokenChar c) : grabTok 11 t = some t := by
  have general : ∀ (n : Nat) (l : Chars), l.length = n →
      (∀ c ∈ l, isTokenChar c) → grabTok n l = some l := by
    intro n
    induction n with
    | zero => intro l hl _; cases l with
      | nil => rfl
      | cons c l => simp at hl
    | succ m ih =>
      intro l hl hv
      cases l with
      | nil => simp at hl
      | cons c l =>
        have hc : isTokenChar c := hv c (List.mem_cons_self c l)
        have hrest : ∀ d ∈ l, isTokenChar d := fun d hd => hv d (List.mem_cons_of_mem c hd)
        simp only [List.length_cons, Nat.succ.injEq] at hl
        simp [grabTok, hc, ih l hl hrest]
  exact general 11 t hlen hall

/-- No alternative of the pattern starts with a character other than
`v`, `y`, `e`, `w`: the scan skips such a position. -/
theorem tryHere_head_ne (c : Char) (r : Chars) (hv : c ≠ 'v') (hy : c ≠ 'y')
    (he : c ≠ 'e') (hw : c ≠ 'w') : tryHere (c :: r) = none := by
  simp [tryHere, strL, matchLit, Ne.symm hv, Ne.symm hy, Ne.symm he, Ne.symm hw,
    Option.orElse]

theorem extract_cons_none (c : Char) (r : Chars) (h : tryHere (c :: r) = none) :
    extract_youtube_id (c :: r) = extract_youtube_id r := by
  simp [extract_youtube_id, h]

/-- At `w` followed by anything but `a`, all four alternatives fail. -/
theorem tryHere_w_ne (c : Char) (r : Chars) (h : c ≠ 'a') :
    tryHere ('w' :: c :: r) = none := by
  simp [tryHere, strL, matchLit, Ne.symm h, Option.orElse]

/-- At `youtub…`, the `youtu.be/` alternative dies at the dot. -/
theorem tryHere_youtub (r : Chars) : tryHere ('y' :: 'o' :: 'u' :: 't' :: 'u' :: 'b' :: r) = none := by
  simp [tryHere, strL, matchLit, Option.orElse]

/-- At `e` followed by anything but `m`, all four alternatives fail. -/
theorem tryHere_e_ne (c : Char) (r : Chars) (h : c ≠ 'm') :
    tryHere ('e' :: c :: r) = none := by
  simp [tryHere, strL, matchLit, Ne.symm h, Option.orElse]

theorem tryHere_vEq (t : Chars) (hlen : t.length = 11)
    (hall : ∀ c ∈ t, isTokenChar c) : tryHere (strL "v=" ++ t) = some t := by
  simp [tryHere, strL, matchLit, grabTok_of_valid t hlen hall, Option.orElse]

theorem tryHere_youtuBe (t : Chars) (hlen : t.length = 11)
    (hall : ∀ c ∈ t, isTokenChar c) : tryHere (strL "youtu.be/" ++ t) = some t := by
  simp [tryHere, strL, matchLit, matchLit_append, grabTok_of_valid t hlen hall,
    Option.orElse]

theorem tryHere_embed (t : Chars) (hlen : t.length = 11)
    (hall : ∀ c ∈ t, isTokenChar c) : tryHere (strL "embed/" ++ t) = some t := by
  simp [tryHere, strL, matchLit, matchLit_append, grabTok_of_valid t hlen hall,
    Option.orElse]

theorem tryHere_watch (t : Chars) (hlen : t.length = 11)
    (hall : ∀ c ∈ t, isTokenChar c) : tryHere (strL "watch?v=" ++ t) = some t := by
  simp [tryHere, strL, matchLit, matchLit_append, grabTok_of_valid t hlen hall,
    Option.orElse]

theorem extract_cons_some (c : Char) (r tok : Chars)
    (h : tryHere (c :: r) = some tok) :
    extract_youtube_id (c :: r) = tok := by
  simp [extract_youtube_id, h]

theorem extract_watch_url (t : Chars) (hlen : t.length = 11)
    (hall : ∀ c ∈ t, isTokenChar c) :
    extract_youtube_id (strL "https://www.youtube.com/watch?v=" ++ t) = t := by
  show extract_youtube_id ('h' :: 't' :: 't' :: 'p' :: 's' :: ':' :: '/' :: '/' :: 'w' :: 'w' :: 'w' :: '.' :: 'y' :: 'o' :: 'u' :: 't' :: 'u' :: 'b' :: 'e' :: '.' :: 'c' :: 'o' :: 'm' :: '/' ::(strL "watch?v=" ++ t)) = t
  rw [
    extract_cons_none 'h' _ (tryHere_head_ne 'h' _ (by decide) (by decide) (by decide) (by decide)),
    extract_cons_none 't' _ (tryHere_head_ne 't' _ (by decide) (by decide) (by decide) (by decide)),
    extract_cons_none 't' _ (tryHere_head_ne 't' _ (by decide) (by decide) (by decide) (by decide)),
    extract_cons_none 'p' _ (tryHere_head_ne 'p' _ (by decide) (by decide) (by decide) (by decide)),
    extract_cons_none 's' _ (tryHere_head_ne 's' _ (by decide) (by decide) (by decide) (by decide)),
    extract_cons_none ':' _ (tryHere_head_ne ':' _ (by decide) (by decide) (by decide) (by decide)),
    extract_cons_none '/' _ (tryHere_head_ne '/' _ (by decide) (by decide) (by decide) (by decide)),
    extract_cons_none '/' _ (tryHere_head_ne '/' _ (by decide) (by decide) (by decide) (by decide)),
    extract_cons_none 'w' _ (tryHere_w_ne 'w' _ (by decide)),
    extract_cons_none 'w' _ (tryHere_w_ne 'w' _ (by decide)),
    extract_cons_none 'w' _ (tryHere_w_ne '.' _ (by decide)),
    extract_cons_none '.' _ (tryHere_head_ne '.' _ (by decide) (by decide) (by decide) (by decide)),
    extract_cons_none 'y' _ (tryHere_youtub _),
    extract_cons_none 'o' _ (tryHere_head_ne 'o' _ (by decide) (by decide) (by decide) (by decide)),
    extract_cons_none 'u' _ (tryHere_head_ne 'u' _ (by decide) (by decide) (by decide) (by decide)),
    extract_cons_none 't' _ (tryHere_head_ne 't' _ (by decide) (by decide) (by decide) (by decide)),
    extract_cons_none 'u' _ (tryHere_head_ne 'u' _ (by decide) (by decide) (by decide) (by decide)),
    extract_cons_none 'b' _ (tryHere_head_ne 'b' _ (by decide) (by decide) (by decide) (by decide)),
    extract_cons_none 'e' _ (tryHere_e_ne '.' _ (by decide)),
    extract_cons_none '.' _ (tryHere_head_ne '.' _ (by decide) (by decide) (by decide) (by decide)),
    extract_cons_none 'c' _ (tryHere_head_ne 'c' _ (by decide) (by decide) (by decide) (by decide)),
    extract_cons_none 'o' _ (tryHere_head_ne 'o' _ (by decide) (by decide) (by decide) (by decide)),
    extract_cons_none 'm' _ (tryHere_head_ne 'm' _ (by decide) (by decide) (by decide) (by decide)),
    extract_cons_none '/' _ (tryHere_head_ne '/' _ (by decide) (by decide) (by decide) (by decide))]
  exact extract_cons_some _ _ t (tryHere_watch t hlen hall)

theorem extract_short_url (t : Chars) (hlen : t.length = 11)
    (hall : ∀ c ∈ t, isTokenChar c) :
    extract_youtube_id (strL "https://youtu.be/" ++ t) = t := by
  show extract_youtube_id ('h' :: 't' :: 't' :: 'p' :: 's' :: ':' :: '/' :: '/' ::(strL "youtu.be/" ++ t)) = t
  rw [
    extract_cons_none 'h' _ (tryHere_head_ne 'h' _ (by decide) (by decide) (by decide) (by decide)),
    extract_cons_none 't' _ (tryHere_head_ne 't' _ (by decide) (by decide) (by decide) (by decide)),
    extract_cons_none 't' _ (tryHere_head_ne 't' _ (by decide) (by decide) (by decide) (by decide)),
    extract_cons_none 'p' _ (tryHere_head_ne 'p' _ (by decide) (by decide) (by decide) (by decide)),
    extract_cons_none 's' _ (tryHere_head_ne 's' _ (by decide) (by decide) (by decide) (by decide)),
    extract_cons_none ':' _ (tryHere_head_ne ':' _ (by decide) (by decide) (by decide) (by decide)),
    extract_cons_none '/' _ (tryHere_head_ne '/' _ (by decide) (by decide) (by decide) (by decide)),
    extract_cons_none '/' _ (tryHere_head_ne '/' _ (by decide) (by decide) (by decide) (by decide))]
  exact extract_cons_some _ _ t (tryHere_youtuBe t hlen hall)

theorem extract_embed_url (t : Chars) (hlen : t.length = 11)
    (hall : ∀ c ∈ t, isTokenChar c) :
    extract_youtube_id (strL "https://www.youtube.com/embed/" ++ t) = t := by
  show extract_youtube_id ('h' :: 't' :: 't' :: 'p' :: 's' :: ':' :: '/' :: '/' :: 'w' :: 'w' :: 'w' :: '.' :: 'y' :: 'o' :: 'u' :: 't' :: 'u' :: 'b' :: 'e' :: '.' :: 'c' :: 'o' :: 'm' :: '/' ::(strL "embed/" ++ t)) = t
  rw [
    extract_cons_none 'h' _ (tryHere_head_ne 'h' _ (by decide) (by decide) (by decide) (by decide)),
    extract_cons_none 't' _ (tryHere_head_ne 't' _ (by decide) (by decide) (by decide) (by decide)),
    extract_cons_none 't' _ (tryHere_head_ne 't' _ (by decide) (by decide) (by decide) (by decide)),
    extract_cons_none 'p' _ (tryHere_head_ne 'p' _ (by decide) (by decide) (by decide) (by decide)),
    extract_cons_none 's' _ (tryHere_head_ne 's' _ (by decide) (by decide) (by decide) (by decide)),
    extract_cons_none ':' _ (tryHere_head_ne ':' _ (by decide) (by decide) (by decide) (by decide)),
    extract_cons_none '/' _ (tryHere_head_ne '/' _ (by decide) (by decide) (by decide) (by decide)),
    extract_cons_none '/' _ (tryHere_head_ne '/' _ (by decide) (by decide) (by decide) (by decide)),
    extract_cons_none 'w' _ (tryHere_w_ne 'w' _ (by decide)),
    extract_cons_none 'w' _ (tryHere_w_ne 'w' _ (by decide)),
    extract_cons_none 'w' _ (tryHere_w_ne '.' _ (by decide)),
    extract_cons_none '.' _ (tryHere_head_ne '.' _ (by decide) (by decide) (by decide) (by decide)),
    extract_cons_none 'y' _ (tryHere_youtub _),
    extract_cons_none 'o' _ (tryHere_head_ne 'o' _ (by decide) (by decide) (by decide) (by decide)),
    extract_cons_none 'u' _ (tryHere_head_ne 'u' _ (by decide) (by decide) (by decide) (by decide)),
    extract_cons_none 't' _ (tryHere_head_ne 't' _ (by decide) (by decide) (by decide) (by decide)),
    extract_cons_none 'u' _ (tryHere_head_ne 'u' _ (by decide) (by decide) (by decide) (by decide)),
    extract_cons_none 'b' _ (tryHere_head_ne 'b' _ (by decide) (by decide) (by decide) (by decide)),
    extract_cons_none 'e' _ (tryHere_e_ne '.' _ (by decide)),
    extract_cons_none '.' _ (tryHere_head_ne '.' _ (by decide) (by decide) (by decide) (by decide)),
    extract_cons_none 'c' _ (tryHere_head_ne 'c' _ (by decide) (by decide) (by decide) (by decide)),
    extract_cons_none 'o' _ (tryHere_head_ne 'o' _ (by decide) (by decide) (by decide) (by decide)),
    extract_cons_none 'm' _ (tryHere_head_ne 'm' _ (by decide) (by decide) (by decide) (by decide)),
    extract_cons_none '/' _ (tryHere_head_ne '/' _ (by decide) (by decide) (by decide) (by decide))]
  exact extract_cons_some _ _ t (tryHere_embed t hlen hall)

theorem extract_bare_vEq (t : Chars) (hlen : t.length = 11)
    (hall : ∀ c ∈ t, isTokenChar c) :
    extract_youtube_id (strL "v=" ++ t) = t :=
  extract_cons_some _ _ t (tryHere_vEq t hlen hall)

/-- A string in which the pattern matches at no position yields the empty id:
the suffixes of `s` are exactly its `drop`s. -/
theorem extract_of_no_match (s : Chars)
    (h : ∀ n, n ≤ s.length → tryHere (s.drop n) = none) :
    extract_youtube_id s = [] := by
  induction s with
  | nil => rfl
  | cons c rest ih =>
    rw [extract_cons_none c rest (h 0 (by simp))]
    exact ih (fun n hn => h (n + 1) (by simpa using Nat.succ_le_succ hn))

/-- C6: for each of the four supported URL shapes (watch URL with `v=`, bare
`v=` query, short `youtu.be/<id>`, `embed/<id>`) containing the same
11-character token drawn from `[0-9A-Za-z_-]`, `_extract_youtube_id` returns
exactly that token; for any string at none of whose positions the pattern
matches, it returns the empty string, and `add_task` then creates no task row
and returns null (hard skip). -/
theorem C6_deterministic_id_extraction
    (t : Chars) (hlen : t.length = 11) (hall : ∀ c ∈ t, isTokenChar c)
    (s : Chars) (hnone : ∀ n, n ≤ s.length → tryHere (s.drop n) = none)
    (tm : TaskManagerCfg) (fs : FileSys) (st : Store) (u title : Chars)
    (N : Nat) (now : Chars) (hu : extract_youtube_id u = []) :
    extract_youtube_id (strL "https://www.youtube.com/watch?v=" ++ t) = t ∧
    extract_youtube_id (strL "v=" ++ t) = t ∧
    extract_youtube_id (strL "https://youtu.be/" ++ t) = t ∧
    extract_youtube_id (strL "https://www.youtube.com/embed/" ++ t) = t ∧
    extract_youtube_id s = [] ∧
    add_task tm fs st u title N now = (st, none) := by
  refine ⟨extract_watch_url t hlen hall, extract_bare_vEq t hlen hall,
    extract_short_url t hlen hall, extract_embed_url t hlen hall,
    extract_of_no_match s hnone, ?_⟩
  simp [add_task, hu]

/-- Witness for C6 at the token `dQw4w9WgXcQ` and the tokenless string
`no token here`. -/
theorem C6_deterministic_id_extraction_witness :
    (strL "dQw4w9WgXcQ").length = 11 ∧
    (extract_youtube_id (strL "https://www.youtube.com/watch?v=" ++ strL "dQw4w9WgXcQ")
        = strL "dQw4w9WgXcQ" ∧
      extract_youtube_id (strL "v=" ++ strL "dQw4w9WgXcQ") = strL "dQw4w9WgXcQ" ∧
      extract_youtube_id (strL "https://youtu.be/" ++ strL "dQw4w9WgXcQ")
        = strL "dQw4w9WgXcQ" ∧
      extract_youtube_id (strL "https://www.youtube.com/embed/" ++ strL "dQw4w9WgXcQ")
        = strL "dQw4w9WgXcQ" ∧
      extract_youtube_id (strL "no token here") = [] ∧
      add_task ⟨[], [], [], []⟩ (fun _ => false) [] (strL "no token here") (strL "T")
        255 [] = ([], none)) :=
  ⟨by decide,
    C6_deterministic_id_extraction (strL "dQw4w9WgXcQ") (by decide) (by decide)
      (strL "no token here") (by decide) ⟨[], [], [], []⟩ (fun _ => false) []
      (strL "no token here") (strL "T") 255 [] (by decide)⟩

/-! ## Lemmas for the normalizer (C9) -/

theorem flatMap_eq_self_of_fixed (f : Char → Chars) (l : Chars)
    (h : ∀ a ∈ l, f a = [a]) : l.flatMap f = l := by
  induction l with
  | nil => rfl
  | cons a l ih =>
    rw [List.flatMap_cons, h a (List.mem_cons_self a l),
      ih (fun b hb => h b (List.mem_cons_of_mem a hb))]
    rfl

theorem map_eq_self_of_fixed (f : Char → Char) (l : Chars)
    (h : ∀ a ∈ l, f a = a) : l.map f = l := by
  induction l with
  | nil => rfl
  | cons a l ih =>
    rw [List.map_cons, h a (List.mem_cons_self a l),
      ih (fun b hb => h b (List.mem_cons_of_mem a hb))]

/-- C9: `_get_comparable_name` is idempotent: applying it twice equals
applying it once, for every string and every character-wise NFKC mapping whose
output characters are normalisation-fixed (with the space character fixed, as
in Unicode). -/
theorem C9_normalizer_idempotent (nfkcChar : Char → Chars) (N : Nat)
    (hfix : ∀ c d, d ∈ nfkcChar c → nfkcChar d = [d])
    (hspace : nfkcChar ' ' = [' ']) (s : Chars) :
    get_comparable_name nfkcChar N (get_comparable_name nfkcChar N s) =
      get_comparable_name nfkcChar N s := by
  set r := get_comparable_name nfkcChar N s with hr
  -- elements of the first pass's output survive its filter and come from
  -- its ideographic-space replacement
  have hmemRep : ∀ d ∈ r, d ∈ replaceIdeographicSpace (nfkcNormalize nfkcChar s) := by
    intro d hd
    rw [hr] at hd
    unfold get_comparable_name safe_filename at hd
    have h0 : d ∈ List.filter (fun c => ! illegalFilenameChar c)
        (replaceIdeographicSpace (nfkcNormalize nfkcChar s)) := List.mem_of_mem_take hd
    exact List.mem_of_mem_filter h0
  have hmemFil : ∀ d ∈ r, (! illegalFilenameChar d) = true := by
    intro d hd
    rw [hr] at hd
    unfold get_comparable_name safe_filename at hd
    have h0 : d ∈ List.filter (fun c => ! illegalFilenameChar c)
        (replaceIdeographicSpace (nfkcNormalize nfkcChar s)) := List.mem_of_mem_take hd
    exact (List.mem_filter.mp h0).2
  have hno3000 : ∀ d ∈ r, d ≠ '　' := by
    intro d hd
    rcases List.mem_map.mp (hmemRep d hd) with ⟨c, _, hcd⟩
    by_cases h : c = '　'
    · rw [if_pos h] at hcd; rw [← hcd]; decide
    · rw [if_neg h] at hcd; rw [← hcd]; exact h
  have hfixed : ∀ d ∈ r, nfkcChar d = [d] := by
    intro d hd
    rcases List.mem_map.mp (hmemRep d hd) with ⟨c, hc, hcd⟩
    by_cases h : c = '　'
    · rw [if_pos h] at hcd; rw [← hcd]; exact hspace
    · rw [if_neg h] at hcd
      rcases List.mem_flatMap.mp hc with ⟨a, _, hca⟩
      rw [← hcd]; exact hfix a c hca
  have hlenr : r.length ≤ N := by
    rw [hr]; unfold get_comparable_name safe_filename
    exact List.length_take_le N _
  unfold get_comparable_name
  rw [show nfkcNormalize nfkcChar r = r from flatMap_eq_self_of_fixed nfkcChar r hfixed,
    show replaceIdeographicSpace r = r from
      map_eq_self_of_fixed _ r (fun a ha => if_neg (hno3000 a ha))]
  unfold safe_filename
  rw [List.filter_eq_self.mpr hmemFil, List.take_of_length_le hlenr]

/-- Witness for C9: the identity compatibility mapping and a string holding
illegal characters, an ideographic space, and excess length. -/
theorem C9_normalizer_idempotent_witness :
    (fun (c : Char) => [c]) ' ' = [' '] ∧
    get_comparable_name (fun c => [c]) 10
        (get_comparable_name (fun c => [c]) 10 (strL "a|b　c,d/e?f gh ijklmn")) =
      get_comparable_name (fun c => [c]) 10 (strL "a|b　c,d/e?f gh ijklmn") :=
  ⟨rfl, C9_normalizer_idempotent (fun c => [c]) 10
    (by intro c d hd; simp at hd; simp [hd]) rfl (strL "a|b　c,d/e?f gh ijklmn")⟩

/-! ## Lemmas about `add_task` (C2, C4, C5) -/

theorem add_task_of_exists (tm : TaskManagerCfg) (fs : FileSys) (st : Store)
    (u title : Chars) (N : Nat) (now id : Chars)
    (hu : extract_youtube_id u = id) (hne : id ≠ [])
    (hex : task_exists st id = true) :
    add_task tm fs st u title N now = (st, get_task st id) := by
  simp [add_task, hu, hne, hex]

theorem add_task_not_exists (tm : TaskManagerCfg) (fs : FileSys) (st : Store)
    (u title : Chars) (N : Nat) (now id : Chars)
    (hu : extract_youtube_id u = id) (hne : id ≠ [])
    (hex : task_exists st id = false) :
    add_task tm fs st u title N now =
      match uniqueNameLoop tm fs st (safe_filename title N) N 999
          (safe_filename title N) with
      | none => (st, none)
      | some b =>
        (st ++ [newTaskRow tm st id u (safe_filename title N) b now],
         get_task (st ++ [newTaskRow tm st id u (safe_filename title N) b now]) id) := by
  simp [add_task, hu, hne, hex]

theorem add_task_insert_none (tm : TaskManagerCfg) (fs : FileSys) (st : Store)
    (u title : Chars) (N : Nat) (now id : Chars)
    (hu : extract_youtube_id u = id) (hne : id ≠ [])
    (hex : task_exists st id = false)
    (hloop : uniqueNameLoop tm fs st (safe_filename title N) N 999
      (safe_filename title N) = none) :
    add_task tm fs st u title N now = (st, none) := by
  simp [add_task, hu, hne, hex, hloop]

theorem add_task_insert_some (tm : TaskManagerCfg) (fs : FileSys) (st : Store)
    (u title : Chars) (N : Nat) (now id : Chars)
    (hu : extract_youtube_id u = id) (hne : id ≠ [])
    (hex : task_exists st id = false) (b : Chars)
    (hloop : uniqueNameLoop tm fs st (safe_filename title N) N 999
      (safe_filename title N) = some b) :
    add_task tm fs st u title N now =
      (st ++ [newTaskRow tm st id u (safe_filename title N) b now],
       get_task (st ++ [newTaskRow tm st id u (safe_filename title N) b now]) id) := by
  simp [add_task, hu, hne, hex, hloop]

theorem get_task_append_new (st : Store) (row : Task) (id : Chars)
    (hex : task_exists st id = false)
    (hrow : row.youtube_id = DBValue.text id) :
    get_task (st ++ [row]) id = some row := by
  unfold get_task
  rw [List.find?_append]
  have hall : ∀ x ∈ st, ¬ x.youtube_id = DBValue.text id := by
    simpa [task_exists] using hex
  have hnone : st.find? (fun t => t.youtube_id = DBValue.text id) = none := by
    rw [List.find?_eq_none]
    intro t ht
    simpa using hall t ht
  rw [hnone]
  simp [List.find?, hrow]

theorem task_exists_append_new (st : Store) (row : Task) (id : Chars)
    (hrow : row.youtube_id = DBValue.text id) :
    task_exists (st ++ [row]) id = true := by
  unfold task_exists
  rw [List.any_eq_true]
  exact ⟨row, by simp, by simp [hrow]⟩

theorem countTasks_of_not_exists (st : Store) (id : Chars)
    (hex : task_exists st id = false) : countTasks st id = 0 := by
  have hall : ∀ x ∈ st, ¬ x.youtube_id = DBValue.text id := by
    simpa [task_exists] using hex
  unfold countTasks
  rw [List.countP_eq_zero]
  intro t ht
  simpa using hall t ht

theorem countTasks_pos_of_exists (st : Store) (id : Chars)
    (hex : task_exists st id = true) : 1 ≤ countTasks st id := by
  have hex' : ∃ x ∈ st, x.youtube_id = DBValue.text id := by
    simpa [task_exists] using hex
  rcases hex' with ⟨t, ht, hp⟩
  unfold countTasks
  exact List.countP_pos_iff.mpr ⟨t, ht, by simpa using hp⟩

/-- C2: calling `add_task` twice with URLs carrying the same extracted id
(starting from a store satisfying the id-uniqueness constraint) leaves exactly
one row for that id; the second call inserts nothing and returns the stored
row unchanged. -/
theorem C2_idempotent_creation (tm : TaskManagerCfg) (fs : FileSys) (st0 : Store)
    (u1 u2 title1 title2 : Chars) (N : Nat) (now1 now2 id : Chars)
    (hne : id ≠ []) (h1 : extract_youtube_id u1 = id) (h2 : extract_youtube_id u2 = id)
    (hcount : countTasks st0 id ≤ 1)
    (st1 : Store) (t1 : Task)
    (hadd1 : add_task tm fs st0 u1 title1 N now1 = (st1, some t1)) :
    add_task tm fs st1 u2 title2 N now2 = (st1, get_task st1 id) ∧
    get_task st1 id = some t1 ∧
    countTasks st1 id = 1 := by
  by_cases hex : task_exists st0 id = true
  · -- the first call already found the row: store unchanged
    rw [add_task_of_exists tm fs st0 u1 title1 N now1 id h1 hne hex] at hadd1
    have hst : st1 = st0 := by
      have := congrArg Prod.fst hadd1; simpa using this.symm
    have hget : get_task st0 id = some t1 := by
      have := congrArg Prod.snd hadd1; simpa using this
    rw [hst]
    refine ⟨add_task_of_exists tm fs st0 u2 title2 N now2 id h2 hne hex, hget, ?_⟩
    exact Nat.le_antisymm hcount (countTasks_pos_of_exists st0 id hex)
  · -- the first call inserted the row
    have hexf : task_exists st0 id = false := by
      cases h : task_exists st0 id with
      | true => exact absurd h hex
      | false => rfl
    rw [add_task_not_exists tm fs st0 u1 title1 N now1 id h1 hne hexf] at hadd1
    cases hloop : uniqueNameLoop tm fs st0 (safe_filename title1 N) N 999
        (safe_filename title1 N) with
    | none => rw [hloop] at hadd1; simp at hadd1
    | some b =>
      rw [hloop] at hadd1
      set row := newTaskRow tm st0 id u1 (safe_filename title1 N) b now1 with hrowdef
      have hst : st1 = st0 ++ [row] := by
        have := congrArg Prod.fst hadd1; simpa using this.symm
      have hrowid : row.youtube_id = DBValue.text id := by
        rw [hrowdef]; rfl
      have hex1 : task_exists st1 id = true := by
        rw [hst]; exact task_exists_append_new st0 row id hrowid
      have hget1 : get_task st1 id = some row := by
        rw [hst]; exact get_task_append_new st0 row id hexf hrowid
      have ht1 : t1 = row := by
        have := congrArg Prod.snd hadd1
        simp only at this
        rw [hst] at hget1
        rw [get_task_append_new st0 row id hexf hrowid] at this
        exact (Option.some.injEq _ _ ▸ this).symm
      refine ⟨add_task_of_exists tm fs st1 u2 title2 N now2 id h2 hne hex1, ?_, ?_⟩
      · rw [hget1, ht1]
      · rw [hst]
        unfold countTasks
        rw [List.countP_append]
        have h0 : countTasks st0 id = 0 := countTasks_of_not_exists st0 id hexf
        unfold countTasks at h0
        rw [h0]
        simp [hrowid]

/-- Concrete task-manager configuration for witnesses. -/
def tmW : TaskManagerCfg :=
  { video_destination_directory := strL "vd"
    audio_destination_directory := strL "ad"
    video_extension := strL "mp4"
    audio_extension := strL "mp3" }

/-- The row the first witness call inserts. -/
def rowW : Task :=
  newTaskRow tmW [] (strL "AAAAAAAAAAA") (strL "v=AAAAAAAAAAA") (strL "My Song")
    (strL "My Song") []

/-- Witness for C2: two URLs with the same fresh id on an empty store. -/
theorem C2_idempotent_creation_witness :
    add_task tmW (fun _ => false) [] (strL "v=AAAAAAAAAAA") (strL "My Song") 255 []
      = ([rowW], some rowW) ∧
    (add_task tmW (fun _ => false) [rowW] (strL "https://youtu.be/AAAAAAAAAAA")
        (strL "My Song") 255 [] =
      ([rowW], get_task [rowW] (strL "AAAAAAAAAAA")) ∧
      get_task [rowW] (strL "AAAAAAAAAAA") = some rowW ∧
      countTasks [rowW] (strL "AAAAAAAAAAA") = 1) :=
  ⟨by decide,
    C2_idempotent_creation tmW (fun _ => false) [] (strL "v=AAAAAAAAAAA")
      (strL "https://youtu.be/AAAAAAAAAAA") (strL "My Song") (strL "My Song")
      255 [] [] (strL "AAAAAAAAAAA") (by decide) (by decide) (by decide)
      (by decide) [rowW] rowW (by decide)⟩

/-! ## The collision-resolution loop (C4, C5) -/

theorem uniqueNameLoop_zero_eq (tm : TaskManagerCfg) (fs : FileSys) (st : Store)
    (base : Chars) (N : Nat) (cand : Chars) :
    uniqueNameLoop tm fs st base N 0 cand =
      (if filename_collision_exists tm fs st cand then none else some cand) := rfl

theorem uniqueNameLoop_succ_eq (tm : TaskManagerCfg) (fs : FileSys) (st : Store)
    (base : Chars) (N : Nat) (t : Nat) (cand : Chars) :
    uniqueNameLoop tm fs st base N (t + 1) cand =
      (if filename_collision_exists tm fs st cand then
        uniqueNameLoop tm fs st base N t (suffixedName base (1000 - (t + 1)) N)
      else some cand) := rfl

/-- If the bare base and all 999 suffixed candidates collide, the loop gives
up. -/
theorem uniqueNameLoop_none_of_all_collide (tm : TaskManagerCfg) (fs : FileSys)
    (st : Store) (base : Chars) (N : Nat) :
    ∀ (tries : Nat) (cand : Chars),
      filename_collision_exists tm fs st cand = true →
      (∀ k, 1000 - tries ≤ k → k ≤ 999 →
        filename_collision_exists tm fs st (suffixedName base k N) = true) →
      uniqueNameLoop tm fs st base N tries cand = none := by
  intro tries
  induction tries with
  | zero =>
    intro cand hc _
    rw [uniqueNameLoop_zero_eq, if_pos hc]
  | succ t ih =>
    intro cand hc hall
    rw [uniqueNameLoop_succ_eq, if_pos hc]
    apply ih
    · exact hall (1000 - (t + 1)) (le_refl _) (by omega)
    · intro k hk1 hk2
      exact hall k (by omega) hk2

/-- Any name returned by the loop is collision-free and is either the
candidate it was started on or a suffixed form of the base. -/
theorem uniqueNameLoop_some_spec (tm : TaskManagerCfg) (fs : FileSys) (st : Store)
    (base : Chars) (N : Nat) :
    ∀ (tries : Nat) (cand b : Chars),
      uniqueNameLoop tm fs st base N tries cand = some b →
      filename_collision_exists tm fs st b = false ∧
      (b = cand ∨ ∃ k, 1000 - tries ≤ k ∧ k ≤ 999 ∧ b = suffixedName base k N) := by
  intro tries
  induction tries with
  | zero =>
    intro cand b h
    rw [uniqueNameLoop_zero_eq] at h
    by_cases hc : filename_collision_exists tm fs st cand = true
    · rw [if_pos hc] at h; cases h
    · rw [if_neg hc] at h
      injection h with h
      subst h
      exact ⟨by simpa using hc, Or.inl rfl⟩
  | succ t ih =>
    intro cand b h
    rw [uniqueNameLoop_succ_eq] at h
    by_cases hc : filename_collision_exists tm fs st cand = true
    · rw [if_pos hc] at h
      rcases ih _ b h with ⟨hb, hcase⟩
      refine ⟨hb, Or.inr ?_⟩
      rcases hcase with hbc | ⟨k, hk1, hk2, hkb⟩
      · exact ⟨1000 - (t + 1), le_refl _, by omega, hbc⟩
      · exact ⟨k, by omega, hk2, hkb⟩
    · rw [if_neg hc] at h
      injection h with h
      subst h
      exact ⟨by simpa using hc, Or.inl rfl⟩

/-- If the starting candidate collides, every name the loop returns carries a
numeric suffix. -/
theorem uniqueNameLoop_some_of_collision (tm : TaskManagerCfg) (fs : FileSys)
    (st : Store) (base : Chars) (N : Nat) (t : Nat) (cand b : Chars)
    (hc : filename_collision_exists tm fs st cand = true)
    (h : uniqueNameLoop tm fs st base N (t + 1) cand = some b) :
    filename_collision_exists tm fs st b = false ∧
    ∃ k, 1000 - (t + 1) ≤ k ∧ k ≤ 999 ∧ b = suffixedName base k N := by
  rw [uniqueNameLoop_succ_eq, if_pos hc] at h
  rcases uniqueNameLoop_some_spec tm fs st base N t _ b h with ⟨hb, hcase⟩
  refine ⟨hb, ?_⟩
  rcases hcase with hbc | ⟨k, hk1, hk2, hkb⟩
  · exact ⟨1000 - (t + 1), le_refl _, by omega, hbc⟩
  · exact ⟨k, by omega, hk2, hkb⟩

/-- The loop result on a collision-free starting candidate. -/
theorem uniqueNameLoop_no_collision (tm : TaskManagerCfg) (fs : FileSys)
    (st : Store) (base : Chars) (N : Nat) (tries : Nat) (cand : Chars)
    (hc : filename_collision_exists tm fs st cand = false) :
    uniqueNameLoop tm fs st base N tries cand = some cand := by
  cases tries with
  | zero => rw [uniqueNameLoop_zero_eq, if_neg (by simp [hc])]
  | succ t => rw [uniqueNameLoop_succ_eq, if_neg (by simp [hc])]

/-- A collision in a store persists when rows are appended (the filesystem
part is unchanged, the row scan is monotone). -/
theorem collision_append (tm : TaskManagerCfg) (fs : FileSys) (st rows : Store)
    (base : Chars) (h : filename_collision_exists tm fs st base = true) :
    filename_collision_exists tm fs (st ++ rows) base = true := by
  unfold filename_collision_exists at h ⊢
  by_cases hd : (fs (joinPath tm.video_destination_directory
      (base ++ '.' :: tm.video_extension)) ||
      fs (joinPath tm.audio_destination_directory
        (base ++ '.' :: tm.audio_extension))) = true
  · rw [if_pos hd]
  · rw [if_neg hd] at h ⊢
    rw [List.any_append, h]
    rfl

/-- A row claiming the base's video name makes the base collide. -/
theorem collision_of_row_video (tm : TaskManagerCfg) (fs : FileSys) (st : Store)
    (base : Chars) (row : Task) (hrow : row ∈ st)
    (hfv : row.final_video_filename =
      DBValue.text (base ++ '.' :: tm.video_extension)) :
    filename_collision_exists tm fs st base = true := by
  unfold filename_collision_exists
  by_cases hd : (fs (joinPath tm.video_destination_directory
      (base ++ '.' :: tm.video_extension)) ||
      fs (joinPath tm.audio_destination_directory
        (base ++ '.' :: tm.audio_extension))) = true
  · rw [if_pos hd]
  · rw [if_neg hd]
    rw [List.any_eq_true]
    exact ⟨row, hrow, by simp [hfv]⟩

/-- C5: the collision-resolution loop of `add_task` is bounded: when the loop
result is null no row is inserted, and when the suggested base and all 999
suffixed candidates collide, `add_task` gives up and returns null with the
store unchanged. -/
theorem C5_uniqueness_exhaustion (tm : TaskManagerCfg) (fs : FileSys) (st : Store)
    (u title : Chars) (N : Nat) (now : Chars) :
    ((add_task tm fs st u title N now).2 = none →
      (add_task tm fs st u title N now).1 = st) ∧
    (extract_youtube_id u ≠ [] →
      task_exists st (extract_youtube_id u) = false →
      filename_collision_exists tm fs st (safe_filename title N) = true →
      (∀ k, k ≤ 999 → 1 ≤ k →
        filename_collision_exists tm fs st (suffixedName (safe_filename title N) k N)
          = true) →
      add_task tm fs st u title N now = (st, none)) := by
  constructor
  · intro hnone
    by_cases hid : extract_youtube_id u = []
    · simp [add_task, hid]
    · by_cases hex : task_exists st (extract_youtube_id u) = true
      · rw [add_task_of_exists tm fs st u title N now _ rfl hid hex]
      · have hexf : task_exists st (extract_youtube_id u) = false := by
          simpa using hex
        cases hloop : uniqueNameLoop tm fs st (safe_filename title N) N 999
            (safe_filename title N) with
        | none =>
          rw [add_task_insert_none tm fs st u title N now _ rfl hid hexf hloop]
        | some b =>
          rw [add_task_insert_some tm fs st u title N now _ rfl hid hexf b hloop]
            at hnone
          have hrid : (newTaskRow tm st (extract_youtube_id u) u
              (safe_filename title N) b now).youtube_id =
              DBValue.text (extract_youtube_id u) := rfl
          simp only [get_task_append_new st _ _ hexf hrid] at hnone
          cases hnone
  · intro hid hex hc hall
    exact add_task_insert_none tm fs st u title N now _ rfl hid hex
      (uniqueNameLoop_none_of_all_collide tm fs st (safe_filename title N) N 999
        (safe_filename title N) hc (fun k hk1 hk2 => hall k hk2 hk1))

set_option maxRecDepth 100000 in
/-- Witness for C5: a filesystem on which every path exists exhausts all 1000
attempts. -/
theorem C5_uniqueness_exhaustion_witness :
    (strL "AAAAAAAAAAA") ≠ ([] : Chars) ∧
    add_task tmW (fun _ => true) [] (strL "v=AAAAAAAAAAA") (strL "T") 255 []
      = ([], none) :=
  ⟨by decide,
    (C5_uniqueness_exhaustion tmW (fun _ => true) [] (strL "v=AAAAAAAAAAA")
      (strL "T") 255 []).2 (by decide) (by decide) (by decide) (by decide)⟩

/-! ## Suffix length bounds and C4 -/

set_option maxRecDepth 100000 in
/-- Decimal representations of the counters used by the loop have at most
three digits. -/
theorem natRepr_len_le : ∀ k, k ≤ 999 → (strL (toString k)).length ≤ 3 := by decide

/-- With a sane maximum length the truncate-then-append step keeps the
suffixed base within the bound. -/
theorem suffixedName_length_le (base : Chars) (k N : Nat) (hk : k ≤ 999)
    (hN : 4 ≤ N) : (suffixedName base k N).length ≤ N := by
  have hsl : ('_' :: strL (toString k)).length ≤ 4 := by
    have := natRepr_len_le k hk
    simp only [List.length_cons]
    omega
  simp only [suffixedName]
  by_cases hb : base.length + ('_' :: strL (toString k)).length > N
  · rw [if_pos hb]
    rw [List.length_append]
    simp only [pySliceTo]
    have h0 : (0:Int) ≤ (N:Int) - (('_' :: strL (toString k)).length : Int) := by
      omega
    rw [if_pos h0]
    rw [List.length_take]
    have htn : ((N:Int) - (('_' :: strL (toString k)).length : Int)).toNat
        = N - ('_' :: strL (toString k)).length := by omega
    rw [htn]
    omega
  · rw [if_neg hb]
    rw [List.length_append]
    omega

theorem task_exists_append_false (st : Store) (row : Task) (id : Chars)
    (hex : task_exists st id = false)
    (hrow : ¬ row.youtube_id = DBValue.text id) :
    task_exists (st ++ [row]) id = false := by
  unfold task_exists at hex ⊢
  rw [List.any_append, hex]
  simp [hrow]

/-- C4: two `add_task` calls whose titles normalise to the same base but whose
URLs carry distinct fresh ids produce different final video filenames: the
second call appends a numeric suffix `_k` (truncating the base when needed so
the suffixed base still respects `max_len`), and the chosen base collides
neither with the disk nor with any name claimed by a task row. -/
theorem C4_collision_resolution (tm : TaskManagerCfg) (fs : FileSys) (st0 : Store)
    (u1 u2 title1 title2 : Chars) (N : Nat) (now1 now2 id1 id2 : Chars)
    (h1 : extract_youtube_id u1 = id1) (hne1 : id1 ≠ [])
    (h2 : extract_youtube_id u2 = id2) (hne2 : id2 ≠ [])
    (hids : id1 ≠ id2)
    (hex1 : task_exists st0 id1 = false) (hex2 : task_exists st0 id2 = false)
    (hsame : safe_filename title1 N = safe_filename title2 N)
    (hN : 4 ≤ N) (st1 st2 : Store) (t1 t2 : Task)
    (hadd1 : add_task tm fs st0 u1 title1 N now1 = (st1, some t1))
    (hadd2 : add_task tm fs st1 u2 title2 N now2 = (st2, some t2)) :
    t2.final_video_filename ≠ t1.final_video_filename ∧
    ∃ k, 1 ≤ k ∧ k ≤ 999 ∧
      t2.final_video_filename = DBValue.text
        (suffixedName (safe_filename title2 N) k N ++ '.' :: tm.video_extension) ∧
      (suffixedName (safe_filename title2 N) k N).length ≤ N ∧
      filename_collision_exists tm fs st1
        (suffixedName (safe_filename title2 N) k N) = false := by
  -- analyse the first call: it inserted a fresh row
  cases hloop1 : uniqueNameLoop tm fs st0 (safe_filename title1 N) N 999
      (safe_filename title1 N) with
  | none =>
    rw [add_task_insert_none tm fs st0 u1 title1 N now1 id1 h1 hne1 hex1 hloop1]
      at hadd1
    simp at hadd1
  | some b1 =>
    rw [add_task_insert_some tm fs st0 u1 title1 N now1 id1 h1 hne1 hex1 b1 hloop1]
      at hadd1
    set row1 := newTaskRow tm st0 id1 u1 (safe_filename title1 N) b1 now1 with hrow1
    have hrid1 : row1.youtube_id = DBValue.text id1 := rfl
    have hst1 : st1 = st0 ++ [row1] := by
      have := congrArg Prod.fst hadd1; simpa using this.symm
    have ht1 : t1 = row1 := by
      have := congrArg Prod.snd hadd1
      simp only [get_task_append_new st0 row1 id1 hex1 hrid1] at this
      exact (Option.some.injEq _ _ ▸ this).symm
    have hmem1 : row1 ∈ st1 := by rw [hst1]; simp
    -- the second id is still fresh in st1
    have hex2' : task_exists st1 id2 = false := by
      rw [hst1]
      refine task_exists_append_false st0 row1 id2 hex2 ?_
      rw [hrid1]
      intro hcontra
      exact hids (by simpa using hcontra)
    -- the shared suggested base collides in st1
    have hcollS : filename_collision_exists tm fs st1 (safe_filename title2 N)
        = true := by
      by_cases hb1 : b1 = safe_filename title1 N
      · refine collision_of_row_video tm fs st1 (safe_filename title2 N) row1 hmem1 ?_
        rw [hrow1]
        show DBValue.text (b1 ++ '.' :: tm.video_extension) =
          DBValue.text (safe_filename title2 N ++ '.' :: tm.video_extension)
        rw [hb1, hsame]
      · have hcoll0 : filename_collision_exists tm fs st0 (safe_filename title1 N)
            = true := by
          by_cases hc : filename_collision_exists tm fs st0 (safe_filename title1 N)
              = true
          · exact hc
          · have := uniqueNameLoop_no_collision tm fs st0 (safe_filename title1 N)
              N 999 (safe_filename title1 N) (by simpa using hc)
            rw [this] at hloop1
            injection hloop1 with hcontra
            exact absurd hcontra.symm hb1
        rw [hst1, ← hsame]
        exact collision_append tm fs st0 [row1] (safe_filename title1 N) hcoll0
    -- analyse the second call
    cases hloop2 : uniqueNameLoop tm fs st1 (safe_filename title2 N) N 999
        (safe_filename title2 N) with
    | none =>
      rw [add_task_insert_none tm fs st1 u2 title2 N now2 id2 h2 hne2 hex2' hloop2]
        at hadd2
      simp at hadd2
    | some b2 =>
      rw [add_task_insert_some tm fs st1 u2 title2 N now2 id2 h2 hne2 hex2' b2 hloop2]
        at hadd2
      set row2 := newTaskRow tm st1 id2 u2 (safe_filename title2 N) b2 now2 with hrow2
      have hrid2 : row2.youtube_id = DBValue.text id2 := rfl
      have ht2 : t2 = row2 := by
        have := congrArg Prod.snd hadd2
        simp only [get_task_append_new st1 row2 id2 hex2' hrid2] at this
        exact (Option.some.injEq _ _ ▸ this).symm
      rcases uniqueNameLoop_some_of_collision tm fs st1 (safe_filename title2 N)
          N 998 (safe_filename title2 N) b2 hcollS hloop2 with
        ⟨hb2free, k, hk1, hk2, hkb⟩
      have hk1' : 1 ≤ k := by omega
      have ht2fv : t2.final_video_filename =
          DBValue.text (b2 ++ '.' :: tm.video_extension) := by
        rw [ht2, hrow2]; rfl
      have ht1fv : t1.final_video_filename =
          DBValue.text (b1 ++ '.' :: tm.video_extension) := by
        rw [ht1, hrow1]; rfl
      constructor
      · intro heq
        have : filename_collision_exists tm fs st1 b2 = true := by
          refine collision_of_row_video tm fs st1 b2 row1 hmem1 ?_
          rw [← ht1]
          rw [← heq, ht2fv]
        rw [this] at hb2free
        cases hb2free
      · refine ⟨k, hk1', hk2, ?_, suffixedName_length_le _ k N hk2 hN, ?_⟩
        · rw [ht2fv, hkb]
        · rw [← hkb]; exact hb2free

/-- The row the second witness call inserts (`My Song_1`). -/
def row2W : Task :=
  newTaskRow tmW [rowW] (strL "BBBBBBBBBBB") (strL "v=BBBBBBBBBBB") (strL "My Song")
    (strL "My Song_1") []

/-- Witness for C4: same title, two distinct ids, empty disk and store. -/
theorem C4_collision_resolution_witness :
    (strL "AAAAAAAAAAA") ≠ (strL "BBBBBBBBBBB") ∧
    (row2W.final_video_filename ≠ rowW.final_video_filename ∧
      ∃ k, 1 ≤ k ∧ k ≤ 999 ∧
        row2W.final_video_filename = DBValue.text
          (suffixedName (safe_filename (strL "My Song") 255) k 255 ++
            '.' :: tmW.video_extension) ∧
        (suffixedName (safe_filename (strL "My Song") 255) k 255).length ≤ 255 ∧
        filename_collision_exists tmW (fun _ => false) [rowW]
          (suffixedName (safe_filename (strL "My Song") 255) k 255) = false) :=
  ⟨by decide,
    C4_collision_resolution tmW (fun _ => false) [] (strL "v=AAAAAAAAAAA")
      (strL "v=BBBBBBBBBBB") (strL "My Song") (strL "My Song") 255 [] []
      (strL "AAAAAAAAAAA") (strL "BBBBBBBBBBB") (by decide) (by decide)
      (by decide) (by decide) (by decide) (by decide) (by decide) rfl
      (by omega) [rowW] [rowW, row2W] rowW row2W (by decide) (by decide)⟩

/-! ## `update_task` frame lemmas (C8) -/

theorem getF_setF_same (t : Task) (f : TaskField) (v : DBValue) :
    getF (setF t f v) f = v := by
  cases f <;> rfl

theorem getF_setF_ne (t : Task) (f g : TaskField) (v : DBValue) (h : g ≠ f) :
    getF (setF t f v) g = getF t g := by
  cases f <;> cases g <;> first | rfl | exact absurd rfl h

theorem fieldName_colOfName (k : Chars) (f : TaskField)
    (h : colOfName k = some f) : fieldName f = k := by
  have := List.find?_some h
  simpa using this

theorem colOfName_mem_isSome (k : Chars) (hk : k ∈ tableColumns) :
    ∃ f, colOfName k = some f := by
  have hmap : tableColumns = allFields.map fieldName := by decide
  rw [hmap] at hk
  rcases List.mem_map.mp hk with ⟨f, hf, hfk⟩
  have : (allFields.find? (fun g => fieldName g = k)).isSome := by
    rw [List.find?_isSome]
    exact ⟨f, hf, by simpa using hfk⟩
  rcases Option.isSome_iff_exists.mp this with ⟨g, hg⟩
  exact ⟨g, hg⟩

theorem getCol_setCol_ne (t : Task) (k c : Chars) (v : DBValue) (h : c ≠ k) :
    getCol (setCol t k v) c = getCol t c := by
  unfold getCol setCol
  cases hk : colOfName k with
  | none => rfl
  | some f =>
    cases hc : colOfName c with
    | none => rfl
    | some g =>
      have hfg : g ≠ f := by
        intro hgf
        apply h
        rw [← fieldName_colOfName c g hc, ← fieldName_colOfName k f hk, hgf]
      exact getF_setF_ne t f g v hfg

theorem getCol_setCol_same (t : Task) (k : Chars) (v : DBValue)
    (hk : k ∈ tableColumns) : getCol (setCol t k v) k = v := by
  rcases colOfName_mem_isSome k hk with ⟨f, hf⟩
  unfold getCol setCol
  rw [hf]
  exact getF_setF_same t f v

theorem getCol_foldl_of_not_mem (kvs : List (Chars × DBValue)) (t : Task)
    (c : Chars) (h : ∀ p ∈ kvs, p.1 ≠ c) :
    getCol (kvs.foldl (fun r p => setCol r p.1 p.2) t) c = getCol t c := by
  induction kvs generalizing t with
  | nil => rfl
  | cons p kvs ih =>
    rw [List.foldl_cons]
    rw [ih (setCol t p.1 p.2) (fun q hq => h q (List.mem_cons_of_mem p hq))]
    exact getCol_setCol_ne t p.1 c p.2
      (fun hc => h p (List.mem_cons_self p kvs) hc.symm)

theorem getCol_foldl_of_mem (kvs : List (Chars × DBValue)) (c : Chars)
    (v : DBValue) (hc : c ∈ tableColumns) :
    ∀ (t : Task), (kvs.map Prod.fst).Nodup → (c, v) ∈ kvs →
      getCol (kvs.foldl (fun r p => setCol r p.1 p.2) t) c = v := by
  induction kvs with
  | nil => intro t _ hmem; cases hmem
  | cons p kvs ih =>
    intro t hnd hmem
    obtain ⟨pk, pv⟩ := p
    rw [List.foldl_cons]
    have hnd' : (pk :: kvs.map Prod.fst).Nodup := hnd
    rcases List.mem_cons.mp hmem with heq | htail
    · -- the head is the assignment for `c`, and no later key repeats it
      have hck : c = pk := congrArg Prod.fst heq
      have hcv : v = pv := congrArg Prod.snd heq
      subst hck
      have hkeys : ∀ q ∈ kvs, q.1 ≠ c := by
        intro q hq hqc
        exact (List.nodup_cons.mp hnd').1 (List.mem_map.mpr ⟨q, hq, hqc⟩)
      rw [getCol_foldl_of_not_mem kvs _ c hkeys]
      rw [getCol_setCol_same t c pv hc]
      exact hcv.symm
    · exact ih (setCol t pk pv) (List.nodup_cons.mp hnd').2 htail

theorem nodup_filter_keys (kvs : List (Chars × DBValue)) (f : Chars × DBValue → Bool)
    (hnd : (kvs.map Prod.fst).Nodup) : ((kvs.filter f).map Prod.fst).Nodup :=
  List.Nodup.sublist (List.Sublist.map Prod.fst (List.filter_sublist kvs)) hnd

theorem getCol_applyUpdates_lu (kvs : List (Chars × DBValue)) (t : Task)
    (now : Chars) :
    getCol (applyUpdates kvs now t) (strL "last_updated_date")
      = DBValue.text now := by
  unfold applyUpdates
  exact getCol_setCol_same _ _ _ (by decide)

theorem getCol_applyUpdates_frame (kvs : List (Chars × DBValue)) (t : Task)
    (now c : Chars) (hlu : c ≠ strL "last_updated_date")
    (h : ∀ p ∈ kvs, p.1 ≠ c) :
    getCol (applyUpdates kvs now t) c = getCol t c := by
  unfold applyUpdates
  rw [getCol_setCol_ne _ _ _ _ hlu]
  exact getCol_foldl_of_not_mem _ t c (fun p hp => h p (List.mem_of_mem_filter hp))

theorem getCol_applyUpdates_written (kvs : List (Chars × DBValue)) (t : Task)
    (now c : Chars) (v : DBValue) (hnd : (kvs.map Prod.fst).Nodup)
    (hc : c ∈ tableColumns) (hlu : c ≠ strL "last_updated_date")
    (hmem : (c, v) ∈ kvs) :
    getCol (applyUpdates kvs now t) c = v := by
  unfold applyUpdates
  rw [getCol_setCol_ne _ _ _ _ hlu]
  refine getCol_foldl_of_mem _ c v hc t (nodup_filter_keys kvs _ hnd) ?_
  rw [List.mem_filter]
  exact ⟨hmem, by simpa using hlu⟩

/-- C8: `update_task` writes only recognised columns and always stamps
`last_updated_date`; rows with a different id and columns not named in the
update are untouched, and a call without any recognised column is a complete
no-op on the store. -/
theorem C8_update_task_frame (st : Store) (id : Chars)
    (updates : List (Chars × DBValue)) (now : Chars)
    (hnd : (updates.map Prod.fst).Nodup) :
    (updates.filter (fun p => p.1 ∈ tableColumns) = [] →
      update_task st id updates now = st) ∧
    (updates.filter (fun p => p.1 ∈ tableColumns) ≠ [] →
      update_task st id updates now = st.map (fun t =>
        if t.youtube_id = DBValue.text id then
          applyUpdates (updates.filter (fun p => p.1 ∈ tableColumns)) now t
        else t)) ∧
    (∀ t : Task,
      getCol (applyUpdates (updates.filter (fun p => p.1 ∈ tableColumns)) now t)
          (strL "last_updated_date") = DBValue.text now ∧
      (∀ c, c ∈ tableColumns → c ≠ strL "last_updated_date" →
        (c ∉ updates.map Prod.fst →
          getCol (applyUpdates (updates.filter (fun p => p.1 ∈ tableColumns)) now t) c
            = getCol t c) ∧
        (∀ v, (c, v) ∈ updates →
          getCol (applyUpdates (updates.filter (fun p => p.1 ∈ tableColumns)) now t) c
            = v))) := by
  refine ⟨?_, ?_, ?_⟩
  · intro hempty
    unfold update_task
    rw [if_pos hempty]
  · intro hne
    unfold update_task
    rw [if_neg hne]
  · intro t
    refine ⟨getCol_applyUpdates_lu _ t now, ?_⟩
    intro c hc hlu
    constructor
    · intro hnotin
      refine getCol_applyUpdates_frame _ t now c hlu ?_
      intro p hp hpc
      exact hnotin (List.mem_map.mpr ⟨p, List.mem_of_mem_filter hp, hpc⟩)
    · intro v hv
      refine getCol_applyUpdates_written _ t now c v
        (nodup_filter_keys updates _ hnd) hc hlu ?_
      rw [List.mem_filter]
      exact ⟨hv, by simpa using hc⟩

/-- Witness for C8: one recognised key, one unrecognised key, one matching
row. -/
theorem C8_update_task_frame_witness :
    ((([(strL "status", DBValue.text (strL "failed")), (strL "bogus", DBValue.null)] :
        List (Chars × DBValue)).map Prod.fst).Nodup) ∧
    (([(strL "status", DBValue.text (strL "failed")), (strL "bogus", DBValue.null)] :
        List (Chars × DBValue)).filter (fun p => p.1 ∈ tableColumns) ≠ [] →
      update_task [rowW] (strL "AAAAAAAAAAA")
          [(strL "status", DBValue.text (strL "failed")), (strL "bogus", DBValue.null)]
          (strL "t9") =
        [rowW].map (fun t =>
          if t.youtube_id = DBValue.text (strL "AAAAAAAAAAA") then
            applyUpdates
              (([(strL "status", DBValue.text (strL "failed")),
                 (strL "bogus", DBValue.null)] :
                List (Chars × DBValue)).filter (fun p => p.1 ∈ tableColumns))
              (strL "t9") t
          else t)) :=
  ⟨by decide,
    (C8_update_task_frame [rowW] (strL "AAAAAAAAAAA")
      [(strL "status", DBValue.text (strL "failed")), (strL "bogus", DBValue.null)]
      (strL "t9") (by decide)).2.1⟩

/-! ## C3: skip-on-completed -/

/-- C3: when the stored task for the extracted id is `completed`, the
per-video routine returns `True` immediately, with the world (store and
filesystem) unchanged; the quantification over every oracle shows that no
external collaborator — in particular the fetch collaborator — is consulted. -/
theorem C3_skip_on_completed (o : Oracle) (cfg : Config) (w : World)
    (url id : Chars) (t : Task) (hid : extract_youtube_id url = id)
    (hne : id ≠ []) (hget : get_task w.store id = some t)
    (hst : t.status = DBValue.text (strL "completed")) :
    download_youtube_video o cfg w url = Except.ok (true, w) := by
  simp [download_youtube_video, hid, hne, hget, hst]

/-- Completed variant of the witness row. -/
def rowCW : Task := { rowW with status := DBValue.text (strL "completed") }

/-- Concrete configuration for witnesses (the source defaults: all steps
enabled, reconversion on). -/
def cfgW : Config :=
  { dry_run := false
    download_captions := true
    download_video := true
    download_audio := true
    reconvert_media := true
    keep_original_video := false
    keep_original_audio := false
    video_destination_directory := strL "vd"
    audio_destination_directory := strL "ad"
    video_extension := strL "mp4"
    audio_extension := strL "mp3"
    audio_mime_type := strL "mp4"
    max_file_length := 255
    now := strL "t9" }

/-- A concrete all-succeeding oracle for witnesses. -/
def orcW : Oracle := fun _ =>
  { init := Except.ok ()
    titleR := Except.ok (strL "My Song")
    lengthR := Except.ok 10
    captionsR := Except.ok []
    captionSave := fun _ => Except.ok ()
    streamsR := Except.ok ()
    videoSpecific := true
    videoHighest := false
    videoDownload := Except.ok ()
    audioExtract := Except.ok true
    audioSpecific := true
    audioOnlySub := false
    audioOnlyAny := false
    audioDownload := Except.ok ()
    audioWrite := Except.ok ()
    mergedHasAudio := Except.ok false
    mergeWrite := Except.ok ()
    hashFile := fun _ => strL "digest" }

/-- Witness for C3 on a concrete completed task. -/
theorem C3_skip_on_completed_witness :
    get_task [rowCW] (strL "AAAAAAAAAAA") = some rowCW ∧
    download_youtube_video orcW cfgW ⟨[rowCW], fun _ => false⟩
        (strL "v=AAAAAAAAAAA") =
      Except.ok (true, (⟨[rowCW], fun _ => false⟩ : World)) :=
  ⟨by decide,
    C3_skip_on_completed orcW cfgW ⟨[rowCW], fun _ => false⟩
      (strL "v=AAAAAAAAAAA") (strL "AAAAAAAAAAA") rowCW (by decide) (by decide)
      (by decide) (by decide)⟩

/-! ## C7: per-item failure isolation in the batch driver -/

theorem retryLoop_succ_error (f : World → RoutineRes) (n : Nat) (w : World)
    (err : Chars) (e : PyErr) (w' : World)
    (h : f w = Except.error (e, w')) :
    retryLoop f (n + 1) w err = retryLoop f n w' e.msg := by
  show (match f w with
    | Except.ok r => Except.ok r
    | Except.error (e, w') => retryLoop f n w' e.msg) = _
  rw [h]

/-- C7: the batch driver visits every item of the sequence no matter what the
per-video download function does — including raising bot-detection errors or
the generic exception the retry wrapper re-raises after exhausting its
attempts (second conjunct: a per-video routine that always raises makes the
wrapper re-raise a generic exception after its attempts). -/
theorem C7_batch_failure_isolation (o : Oracle) (cfg : Config)
    (dl : Chars → World → RoutineRes) (w : World) (videos : List VideoItem) :
    (preprocess_videos_from_list o cfg dl w videos).2 = videos.length ∧
    (∀ (f : World → RoutineRes) (w0 : World),
      (∀ w', ∃ e w'', f w' = Except.error (e, w'')) →
      ∃ msg w3, retry_function 3 f w0 = Except.error (PyErr.generic msg, w3)) := by
  constructor
  · have key : ∀ (vs : List VideoItem) (w0 : World) (n : Nat),
        (vs.foldl (fun acc item => (preprocessItem o cfg dl acc.1 item, acc.2 + 1))
          (w0, n)).2 = n + vs.length := by
      intro vs
      induction vs with
      | nil => intro w0 n; simp
      | cons v vs ih =>
        intro w0 n
        rw [List.foldl_cons, ih]
        simp [List.length_cons]
        omega
    unfold preprocess_videos_from_list
    rw [key videos w 0]
    omega
  · intro f w0 hf
    obtain ⟨e1, w1, h1⟩ := hf w0
    obtain ⟨e2, w2, h2⟩ := hf w1
    obtain ⟨e3, w3, h3⟩ := hf w2
    refine ⟨strL "All retries failed: " ++ e3.msg, w3, ?_⟩
    unfold retry_function
    rw [retryLoop_succ_error f 2 w0 [] e1 w1 h1,
      retryLoop_succ_error f 1 w1 e1.msg e2 w2 h2,
      retryLoop_succ_error f 0 w2 e2.msg e3 w3 h3]
    rfl

/-- Witness for C7: a one-item batch whose download function always raises
bot detection is still fully visited, and the retry wrapper re-raises. -/
theorem C7_batch_failure_isolation_witness :
    (preprocess_videos_from_list orcW cfgW
        (fun _ w => Except.error (PyErr.botDetection (strL "bot"), w))
        ⟨[], fun _ => false⟩ [VideoItem.urlStr (strL "v=AAAAAAAAAAA")]).2 = 1 ∧
    ∃ msg w3,
      retry_function 3 (fun w => Except.error (PyErr.botDetection (strL "bot"), w))
        ⟨[], fun _ => false⟩ = Except.error (PyErr.generic msg, w3) := by
  have h := C7_batch_failure_isolation orcW cfgW
    (fun _ w => Except.error (PyErr.botDetection (strL "bot"), w))
    ⟨[], fun _ => false⟩ [VideoItem.urlStr (strL "v=AAAAAAAAAAA")]
  exact ⟨h.1, h.2 (fun w => Except.error (PyErr.botDetection (strL "bot"), w))
    ⟨[], fun _ => false⟩ (fun w' => ⟨PyErr.botDetection (strL "bot"), w', rfl⟩)⟩

/-! ## Row evolution under orchestrator operations (C1, C10)

`Evolves tm S a b` says: going from store `a` to store `b`, no row's id
disappears, every row of `b` is either an old row whose `youtube_id` and
filename columns are untouched and whose status is unchanged or rewritten to
one of the statuses in `S`, or a freshly inserted row (its id absent from `a`)
carrying the paired-base filename shape and status `pending` (or a status from
`S` after later updates). -/

/-- The paired-base filename shape every inserted row has. -/
def pairedTask (tm : TaskManagerCfg) (t : Task) : Prop :=
  ∃ base, t.final_video_filename = DBValue.text (base ++ '.' :: tm.video_extension)
    ∧ t.final_audio_filename = DBValue.text (base ++ '.' :: tm.audio_extension)

def Evolves (tm : TaskManagerCfg) (S : List Chars) (a b : Store) : Prop :=
  (∀ t ∈ a, ∃ tb ∈ b, tb.youtube_id = t.youtube_id) ∧
  ∀ t' ∈ b,
    (∃ t ∈ a, t.youtube_id = t'.youtube_id ∧
      t'.final_video_filename = t.final_video_filename ∧
      t'.final_audio_filename = t.final_audio_filename ∧
      (t'.status = t.status ∨ ∃ s ∈ S, t'.status = DBValue.text s)) ∨
    ((∀ t ∈ a, t.youtube_id ≠ t'.youtube_id) ∧ pairedTask tm t' ∧
      (t'.status = DBValue.text (strL "pending") ∨ ∃ s ∈ S, t'.status = DBValue.text s))

theorem evolves_refl (tm : TaskManagerCfg) (S : List Chars) (a : Store) :
    Evolves tm S a a :=
  ⟨fun t ht => ⟨t, ht, rfl⟩,
   fun t' ht' => Or.inl ⟨t', ht', rfl, rfl, rfl, Or.inl rfl⟩⟩

theorem evolves_trans (tm : TaskManagerCfg) (S : List Chars) (a b c : Store)
    (h1 : Evolves tm S a b) (h2 : Evolves tm S b c) : Evolves tm S a c := by
  constructor
  · intro t ht
    rcases h1.1 t ht with ⟨tb, htb, hib⟩
    rcases h2.1 tb htb with ⟨tc, htc, hic⟩
    exact ⟨tc, htc, hic.trans hib⟩
  · intro t'' ht''
    rcases h2.2 t'' ht'' with ⟨t', ht', hid, hfv, hfa, hst⟩ | ⟨hfresh, hp, hs⟩
    · rcases h1.2 t' ht' with ⟨t, ht, hid2, hfv2, hfa2, hst2⟩ | ⟨hfresh2, hp2, hs2⟩
      · left
        refine ⟨t, ht, hid2.trans hid, hfv.trans hfv2, hfa.trans hfa2, ?_⟩
        rcases hst with hse | ⟨s, hsS, hsv⟩
        · rcases hst2 with hse2 | ⟨s, hsS, hsv⟩
          · exact Or.inl (hse.trans hse2)
          · exact Or.inr ⟨s, hsS, hse.trans hsv⟩
        · exact Or.inr ⟨s, hsS, hsv⟩
      · right
        refine ⟨?_, ?_, ?_⟩
        · intro t ht heq
          exact hfresh2 t ht (heq.trans hid.symm)
        · rcases hp2 with ⟨base, hb1, hb2⟩
          exact ⟨base, hfv.trans hb1, hfa.trans hb2⟩
        · rcases hst with hse | ⟨s, hsS, hsv⟩
          · rcases hs2 with hpend | ⟨s, hsS, hsv⟩
            · exact Or.inl (hse.trans hpend)
            · exact Or.inr ⟨s, hsS, hse.trans hsv⟩
          · exact Or.inr ⟨s, hsS, hsv⟩
    · right
      refine ⟨?_, hp, hs⟩
      intro t ht heq
      rcases h1.1 t ht with ⟨tb, htb, hib⟩
      exact hfresh tb htb (hib.trans heq)

theorem evolves_mono (tm : TaskManagerCfg) (S S' : List Chars) (a b : Store)
    (hsub : ∀ s ∈ S, s ∈ S') (h : Evolves tm S a b) : Evolves tm S' a b := by
  refine ⟨h.1, ?_⟩
  intro t' ht'
  rcases h.2 t' ht' with ⟨t, ht, hid, hfv, hfa, hst⟩ | ⟨hfresh, hp, hs⟩
  · left
    refine ⟨t, ht, hid, hfv, hfa, ?_⟩
    rcases hst with hse | ⟨s, hsS, hsv⟩
    · exact Or.inl hse
    · exact Or.inr ⟨s, hsub s hsS, hsv⟩
  · right
    refine ⟨hfresh, hp, ?_⟩
    rcases hs with hpend | ⟨s, hsS, hsv⟩
    · exact Or.inl hpend
    · exact Or.inr ⟨s, hsub s hsS, hsv⟩

theorem getCol_setCol_cases (t : Task) (k c : Chars) (v : DBValue) :
    getCol (setCol t k v) c = getCol t c ∨ (k = c ∧ getCol (setCol t k v) c = v) := by
  by_cases h : c = k
  · subst h
    unfold getCol setCol
    cases hc : colOfName c with
    | none => left; rfl
    | some f => right; exact ⟨rfl, getF_setF_same t f v⟩
  · left; exact getCol_setCol_ne t k c v h

theorem getCol_foldl_cases (kvs : List (Chars × DBValue)) (c : Chars) :
    ∀ (t : Task),
      getCol (kvs.foldl (fun r p => setCol r p.1 p.2) t) c = getCol t c ∨
      ∃ p ∈ kvs, p.1 = c ∧
        getCol (kvs.foldl (fun r p => setCol r p.1 p.2) t) c = p.2 := by
  induction kvs with
  | nil => intro t; left; rfl
  | cons q kvs ih =>
    intro t
    rw [List.foldl_cons]
    rcases ih (setCol t q.1 q.2) with h | ⟨p, hp, hpc, hpv⟩
    · rcases getCol_setCol_cases t q.1 c q.2 with h2 | ⟨hqc, hqv⟩
      · left; rw [h, h2]
      · right; exact ⟨q, List.mem_cons_self q kvs, hqc, by rw [h, hqv]⟩
    · right; exact ⟨p, List.mem_cons_of_mem q hp, hpc, hpv⟩

theorem getCol_applyUpdates_cases (kvs : List (Chars × DBValue)) (t : Task)
    (now c : Chars) (hcne : c ≠ strL "last_updated_date") :
    getCol (applyUpdates kvs now t) c = getCol t c ∨
    ∃ p ∈ kvs, p.1 = c ∧ getCol (applyUpdates kvs now t) c = p.2 := by
  unfold applyUpdates
  rw [getCol_setCol_ne _ _ _ _ hcne]
  rcases getCol_foldl_cases
      (kvs.filter (fun p => p.1 ≠ strL "last_updated_date")) c t with
    h | ⟨p, hp, hpc, hpv⟩
  · left; exact h
  · right; exact ⟨p, List.mem_of_mem_filter hp, hpc, hpv⟩

/-- Any `update_task` whose keys avoid `youtube_id` and the two filename
columns, and whose `status` value (if any) lies in `S`, is an `Evolves` step. -/
theorem evolves_update (tm : TaskManagerCfg) (S : List Chars) (st : Store)
    (id : Chars) (kvs : List (Chars × DBValue)) (now : Chars)
    (hyid : ∀ p ∈ kvs, p.1 ≠ strL "youtube_id")
    (hfv : ∀ p ∈ kvs, p.1 ≠ strL "final_video_filename")
    (hfa : ∀ p ∈ kvs, p.1 ≠ strL "final_audio_filename")
    (hstat : ∀ p ∈ kvs, p.1 = strL "status" → ∃ s ∈ S, p.2 = DBValue.text s) :
    Evolves tm S st (update_task st id kvs now) := by
  unfold update_task
  by_cases hemp : kvs.filter (fun p => p.1 ∈ tableColumns) = []
  · rw [if_pos hemp]; exact evolves_refl tm S st
  · rw [if_neg hemp]
    have hkeep : ∀ t : Task,
        (applyUpdates (kvs.filter (fun p => p.1 ∈ tableColumns)) now t).youtube_id
            = t.youtube_id ∧
        (applyUpdates (kvs.filter (fun p => p.1 ∈ tableColumns)) now t).final_video_filename
            = t.final_video_filename ∧
        (applyUpdates (kvs.filter (fun p => p.1 ∈ tableColumns)) now t).final_audio_filename
            = t.final_audio_filename ∧
        ((applyUpdates (kvs.filter (fun p => p.1 ∈ tableColumns)) now t).status = t.status ∨
          ∃ s ∈ S, (applyUpdates (kvs.filter (fun p => p.1 ∈ tableColumns)) now t).status
            = DBValue.text s) := by
      intro t
      refine ⟨?_, ?_, ?_, ?_⟩
      · exact getCol_applyUpdates_frame _ t now (strL "youtube_id") (by decide)
          (fun p hp => hyid p (List.mem_of_mem_filter hp))
      · exact getCol_applyUpdates_frame _ t now (strL "final_video_filename")
          (by decide) (fun p hp => hfv p (List.mem_of_mem_filter hp))
      · exact getCol_applyUpdates_frame _ t now (strL "final_audio_filename")
          (by decide) (fun p hp => hfa p (List.mem_of_mem_filter hp))
      · rcases getCol_applyUpdates_cases (kvs.filter (fun p => p.1 ∈ tableColumns))
            t now (strL "status") (by decide) with h | ⟨p, hp, hpc, hpv⟩
        · exact Or.inl h
        · rcases hstat p (List.mem_of_mem_filter hp) hpc with ⟨s, hsS, hps⟩
          right
          exact ⟨s, hsS, by
            have : getCol (applyUpdates (kvs.filter (fun p => p.1 ∈ tableColumns))
                now t) (strL "status") = p.2 := hpv
            rw [hps] at this
            exact this⟩
    constructor
    · intro t ht
      refine ⟨if t.youtube_id = DBValue.text id then
          applyUpdates (kvs.filter (fun p => p.1 ∈ tableColumns)) now t else t,
        List.mem_map.mpr ⟨t, ht, rfl⟩, ?_⟩
      by_cases hm : t.youtube_id = DBValue.text id
      · rw [if_pos hm]; exact (hkeep t).1
      · rw [if_neg hm]
    · intro t' ht'
      rcases List.mem_map.mp ht' with ⟨t, ht, htt⟩
      left
      by_cases hm : t.youtube_id = DBValue.text id
      · rw [if_pos hm] at htt
        subst htt
        exact ⟨t, ht, (hkeep t).1.symm, (hkeep t).2.1, (hkeep t).2.2.1,
          (hkeep t).2.2.2⟩
      · rw [if_neg hm] at htt
        subst htt
        exact ⟨t, ht, rfl, rfl, rfl, Or.inl rfl⟩

/-- The `{"status": s, "error_message": m}` updates (failure marking, dry-run
completion). -/
theorem evolves_status_em (cfg : Config) (S : List Chars) (w : World)
    (id s msg : Chars) (hs : s ∈ S) :
    Evolves (tmOf cfg) S w.store
      (update_task w.store id
        [(strL "status", DBValue.text s), (strL "error_message", DBValue.text msg)]
        cfg.now) := by
  apply evolves_update
  · intro p hp
    rcases List.mem_cons.mp hp with rfl | hp'
    · show strL "status" ≠ strL "youtube_id"; decide
    · rcases List.mem_singleton.mp hp' with rfl
      show strL "error_message" ≠ strL "youtube_id"; decide
  · intro p hp
    rcases List.mem_cons.mp hp with rfl | hp'
    · show strL "status" ≠ strL "final_video_filename"; decide
    · rcases List.mem_singleton.mp hp' with rfl
      show strL "error_message" ≠ strL "final_video_filename"; decide
  · intro p hp
    rcases List.mem_cons.mp hp with rfl | hp'
    · show strL "status" ≠ strL "final_audio_filename"; decide
    · rcases List.mem_singleton.mp hp' with rfl
      show strL "error_message" ≠ strL "final_audio_filename"; decide
  · intro p hp hkey
    rcases List.mem_cons.mp hp with rfl | hp'
    · exact ⟨s, hs, rfl⟩
    · rcases List.mem_singleton.mp hp' with rfl
      exact absurd hkey (show strL "error_message" ≠ strL "status" by decide)

theorem evolves_failTask (cfg : Config) (S : List Chars) (w : World)
    (id msg : Chars) (hs : strL "failed" ∈ S) :
    Evolves (tmOf cfg) S w.store (failTask cfg w id msg).store :=
  evolves_status_em cfg S w id (strL "failed") msg hs

theorem evolves_setStatus (cfg : Config) (S : List Chars) (w : World)
    (id s : Chars) (hs : s ∈ S) :
    Evolves (tmOf cfg) S w.store (setStatus cfg w id s).store := by
  show Evolves (tmOf cfg) S w.store
    (update_task w.store id [(strL "status", DBValue.text s)] cfg.now)
  apply evolves_update
  · intro p hp; rcases List.mem_singleton.mp hp with rfl
    show strL "status" ≠ strL "youtube_id"; decide
  · intro p hp; rcases List.mem_singleton.mp hp with rfl
    show strL "status" ≠ strL "final_video_filename"; decide
  · intro p hp; rcases List.mem_singleton.mp hp with rfl
    show strL "status" ≠ strL "final_audio_filename"; decide
  · intro p hp hkey
    rcases List.mem_singleton.mp hp with rfl
    exact ⟨s, hs, rfl⟩

/-- The finalisation update (status, paths, hashes). -/
theorem evolves_finalize (ov : VideoOracle) (cfg : Config) (S : List Chars)
    (w : World) (id rv ra : Chars) (hs : strL "completed" ∈ S) :
    Evolves (tmOf cfg) S w.store (finalizePhase ov cfg id rv ra w).store := by
  show Evolves (tmOf cfg) S w.store
    (update_task w.store id
      [(strL "status", DBValue.text (strL "completed")),
       (strL "video_filepath",
         if cfg.download_video then DBValue.text rv else DBValue.null),
       (strL "audio_filepath",
         if cfg.download_audio then DBValue.text ra else DBValue.null),
       (strL "video_hash",
         if cfg.download_video then DBValue.text (calc_file_hash ov w.fs rv)
         else DBValue.null),
       (strL "audio_hash",
         if cfg.download_audio then DBValue.text (calc_file_hash ov w.fs ra)
         else DBValue.null)] cfg.now)
  apply evolves_update
  · intro p hp
    simp only [List.mem_cons, List.not_mem_nil, or_false] at hp
    rcases hp with rfl | rfl | rfl | rfl | rfl
    · show strL "status" ≠ strL "youtube_id"; decide
    · show strL "video_filepath" ≠ strL "youtube_id"; decide
    · show strL "audio_filepath" ≠ strL "youtube_id"; decide
    · show strL "video_hash" ≠ strL "youtube_id"; decide
    · show strL "audio_hash" ≠ strL "youtube_id"; decide
  · intro p hp
    simp only [List.mem_cons, List.not_mem_nil, or_false] at hp
    rcases hp with rfl | rfl | rfl | rfl | rfl
    · show strL "status" ≠ strL "final_video_filename"; decide
    · show strL "video_filepath" ≠ strL "final_video_filename"; decide
    · show strL "audio_filepath" ≠ strL "final_video_filename"; decide
    · show strL "video_hash" ≠ strL "final_video_filename"; decide
    · show strL "audio_hash" ≠ strL "final_video_filename"; decide
  · intro p hp
    simp only [List.mem_cons, List.not_mem_nil, or_false] at hp
    rcases hp with rfl | rfl | rfl | rfl | rfl
    · show strL "status" ≠ strL "final_audio_filename"; decide
    · show strL "video_filepath" ≠ strL "final_audio_filename"; decide
    · show strL "audio_filepath" ≠ strL "final_audio_filename"; decide
    · show strL "video_hash" ≠ strL "final_audio_filename"; decide
    · show strL "audio_hash" ≠ strL "final_audio_filename"; decide
  · intro p hp hkey
    simp only [List.mem_cons, List.not_mem_nil, or_false] at hp
    rcases hp with rfl | rfl | rfl | rfl | rfl
    · exact ⟨strL "completed", hs, rfl⟩
    · exact absurd hkey (show strL "video_filepath" ≠ strL "status" by decide)
    · exact absurd hkey (show strL "audio_filepath" ≠ strL "status" by decide)
    · exact absurd hkey (show strL "video_hash" ≠ strL "status" by decide)
    · exact absurd hkey (show strL "audio_hash" ≠ strL "status" by decide)

/-- `add_task` is an `Evolves` step: at most one fresh `pending` row with the
paired filename shape is appended. -/
theorem evolves_add_task (tm : TaskManagerCfg) (S : List Chars) (fs : FileSys)
    (st : Store) (u title : Chars) (N : Nat) (now : Chars) :
    Evolves tm S st (add_task tm fs st u title N now).1 := by
  by_cases hid : extract_youtube_id u = []
  · have : add_task tm fs st u title N now = (st, none) := by simp [add_task, hid]
    rw [this]
    exact evolves_refl tm S st
  · by_cases hex : task_exists st (extract_youtube_id u) = true
    · rw [add_task_of_exists tm fs st u title N now _ rfl hid hex]
      exact evolves_refl tm S st
    · have hexf : task_exists st (extract_youtube_id u) = false := by simpa using hex
      cases hloop : uniqueNameLoop tm fs st (safe_filename title N) N 999
          (safe_filename title N) with
      | none =>
        rw [add_task_insert_none tm fs st u title N now _ rfl hid hexf hloop]
        exact evolves_refl tm S st
      | some b =>
        rw [add_task_insert_some tm fs st u title N now _ rfl hid hexf b hloop]
        have hall : ∀ x ∈ st, ¬ x.youtube_id = DBValue.text (extract_youtube_id u) := by
          simpa [task_exists] using hexf
        constructor
        · intro t ht
          exact ⟨t, List.mem_append_left _ ht, rfl⟩
        · intro t' ht'
          rcases List.mem_append.mp ht' with hin | hnew
          · exact Or.inl ⟨t', hin, rfl, rfl, rfl, Or.inl rfl⟩
          · rcases List.mem_singleton.mp hnew with rfl
            right
            refine ⟨?_, ⟨b, rfl, rfl⟩, Or.inl rfl⟩
            intro t ht heq
            exact hall t ht (heq.symm ▸ rfl)

/-! ## Evolution of the routine, phase by phase -/

/-- The world a phase outcome carries. -/
def stepWorld : Except (PyErr × World) StepRes → World
  | Except.ok (StepRes.next w) => w
  | Except.ok (StepRes.exit _ w) => w
  | Except.error (_, w) => w

/-- The world a routine outcome carries. -/
def resWorld : RoutineRes → World
  | Except.ok (_, w) => w
  | Except.error (_, w) => w

/-- The world a pre-check outcome carries. -/
def exWorld : Except (PyErr × World) (World × Bool) → World
  | Except.ok (w, _) => w
  | Except.error (_, w) => w

theorem captionsPhase_store (ov : VideoOracle) (cfg : Config) (v : Chars)
    (codes : List Chars) : ∀ w : World, (captionsPhase ov cfg v codes w).store = w.store := by
  induction codes with
  | nil => intro w; rfl
  | cons c cs ih =>
    intro w
    have h1 : captionsPhase ov cfg v (c :: cs) w =
        captionsPhase ov cfg v cs
          (match ov.captionSave c with
           | Except.ok _ =>
             { w with fs := fsSet w.fs (joinPath cfg.video_destination_directory
                 (v ++ '.' :: (c ++ strL ".txt"))) true }
           | Except.error _ => w) := rfl
    rw [h1, ih]
    cases ov.captionSave c <;> rfl

theorem videoPhase_evolves (ov : VideoOracle) (cfg : Config) (S : List Chars)
    (id vfnS rv : Chars) (w : World) (hfail : strL "failed" ∈ S) :
    Evolves (tmOf cfg) S w.store (stepWorld (videoPhase ov cfg id vfnS rv w)).store := by
  simp only [videoPhase]
  by_cases h1 : cfg.download_video = true
  · rw [if_pos h1]
    by_cases h2 : w.fs rv = true
    · rw [if_neg (not_not_intro h2)]
      exact evolves_refl _ _ _
    · rw [if_pos h2]
      cases hs : ov.streamsR with
      | error e => exact evolves_refl _ _ _
      | ok u =>
        by_cases h3 : (if ov.videoSpecific then true else ov.videoHighest) = true
        · rw [if_neg (not_not_intro h3)]
          cases hd : ov.videoDownload with
          | ok u2 => exact evolves_refl _ _ _
          | error e => exact evolves_failTask cfg S w id _ hfail
        · rw [if_pos h3]
          exact evolves_failTask cfg S w id _ hfail
  · rw [if_neg h1]
    exact evolves_refl _ _ _

theorem audioPhase_evolves (ov : VideoOracle) (cfg : Config) (S : List Chars)
    (id rv ra ta oaf : Chars) (w : World) (hfail : strL "failed" ∈ S) :
    Evolves (tmOf cfg) S w.store
      (stepWorld (audioPhase ov cfg id rv ra ta oaf w)).store := by
  simp only [audioPhase]
  by_cases h1 : cfg.download_audio = true
  · rw [if_pos h1]
    by_cases h2 : w.fs ra = true
    · rw [if_neg (not_not_intro h2)]
      exact evolves_refl _ _ _
    · rw [if_pos h2]
      by_cases h3 : (if w.fs rv = true then
          (match ov.audioExtract with
           | Except.ok b => b
           | Except.error _ => false) else false) = true
      · rw [if_neg (not_not_intro h3), if_pos h3]
        cases hw : ov.audioWrite with
        | ok u =>
          by_cases h4 : cfg.keep_original_audio = true ∧
              cfg.audio_mime_type ≠ cfg.audio_extension ∧
              (fsSet w.fs ra true) ta = true
          · rw [if_pos h4]
            exact evolves_refl _ _ _
          · rw [if_neg h4]
            by_cases h5 : (fsSet w.fs ra true) ta = true
            · rw [if_pos h5]
              exact evolves_refl _ _ _
            · rw [if_neg h5]
              exact evolves_refl _ _ _
        | error e => exact evolves_failTask cfg S w id _ hfail
      · rw [if_pos h3]
        cases hs : ov.streamsR with
        | error e => exact evolves_refl _ _ _
        | ok u =>
          by_cases h6 : (if ov.audioSpecific then true
              else if ov.audioOnlySub then true else ov.audioOnlyAny) = true
          · rw [if_neg (not_not_intro h6)]
            cases hd : ov.audioDownload with
            | ok u2 =>
              rw [if_neg h3]
              cases hw : ov.audioWrite with
              | ok u3 =>
                by_cases h4 : cfg.keep_original_audio = true ∧
                    cfg.audio_mime_type ≠ cfg.audio_extension ∧
                    (fsSet (fsSet w.fs ta true) ra true) ta = true
                · rw [if_pos h4]
                  exact evolves_refl _ _ _
                · rw [if_neg h4]
                  by_cases h5 : (fsSet (fsSet w.fs ta true) ra true) ta = true
                  · rw [if_pos h5]
                    exact evolves_refl _ _ _
                  · rw [if_neg h5]
                    exact evolves_refl _ _ _
              | error e =>
                exact evolves_failTask cfg S
                  { w with fs := fsSet w.fs ta true } id _ hfail
            | error e => exact evolves_failTask cfg S w id _ hfail
          · rw [if_pos h6]
            exact evolves_failTask cfg S w id _ hfail
  · rw [if_neg h1]
    exact evolves_refl _ _ _

theorem mergePhase_evolves (ov : VideoOracle) (cfg : Config) (S : List Chars)
    (id vfnS ab rv ra : Chars) (w : World)
    (hfail : strL "failed" ∈ S) (hcomp : strL "completed" ∈ S) :
    Evolves (tmOf cfg) S w.store
      (stepWorld (mergePhase ov cfg id vfnS ab rv ra w)).store := by
  simp only [mergePhase]
  by_cases h1 : cfg.reconvert_media = true ∧ w.fs rv = true ∧ w.fs ra = true
  · rw [if_pos h1]
    by_cases h2 : (if w.fs (if cfg.keep_original_video then
        joinPath cfg.video_destination_directory (ab ++ strL "_merged." ++ cfg.video_extension)
        else joinPath cfg.video_destination_directory vfnS) then
          (match ov.mergedHasAudio with
           | Except.ok b => b
           | Except.error _ => false)
        else false) = true
    · rw [if_pos h2]
      exact evolves_setStatus cfg S w id (strL "completed") hcomp
    · rw [if_neg h2]
      cases hm : ov.mergeWrite with
      | ok u =>
        by_cases h3 : (¬ cfg.keep_original_video = true ∧
            (fsSet w.fs (ab ++ strL "_merged." ++ cfg.video_extension) true) rv = true)
        · rw [if_pos h3]
          exact evolves_refl _ _ _
        · rw [if_neg h3]
          exact evolves_refl _ _ _
      | error e => exact evolves_failTask cfg S w id _ hfail
  · rw [if_neg h1]
    exact evolves_refl _ _ _

/-- The statuses the per-video routine may write to existing rows. -/
def routineStatuses : List Chars :=
  [strL "in_progress", strL "completed", strL "failed"]

/-- The statuses the pre-check block may write to existing rows. -/
def precheckStatuses : List Chars := [strL "completed", strL "pending"]

/-- The statuses any driver operation may write to existing rows. -/
def driverStatuses : List Chars :=
  [strL "in_progress", strL "completed", strL "failed", strL "pending"]

theorem routinePhases_evolves (ov : VideoOracle) (cfg : Config) (id : Chars)
    (task1 : Task) (af ab : Chars) (w3 : World) :
    Evolves (tmOf cfg) routineStatuses w3.store
      (resWorld (routinePhases ov cfg id task1 af ab w3)).store := by
  simp only [routinePhases]
  split
  · exact evolves_refl _ _ _
  · rename_i vfnS hdb
    split
    · rename_i ew hvp
      obtain ⟨e, we⟩ := ew
      have hv := videoPhase_evolves ov cfg routineStatuses id vfnS
        (joinPath cfg.video_destination_directory vfnS) w3 (by decide)
      rw [hvp] at hv
      exact hv
    · rename_i b w4 hvp
      have hv := videoPhase_evolves ov cfg routineStatuses id vfnS
        (joinPath cfg.video_destination_directory vfnS) w3 (by decide)
      rw [hvp] at hv
      exact hv
    · rename_i w4 hvp
      have hv := videoPhase_evolves ov cfg routineStatuses id vfnS
        (joinPath cfg.video_destination_directory vfnS) w3 (by decide)
      rw [hvp] at hv
      split
      · rename_i ew hap
        obtain ⟨e, we⟩ := ew
        have ha := audioPhase_evolves ov cfg routineStatuses id
          (joinPath cfg.video_destination_directory vfnS)
          (joinPath cfg.audio_destination_directory af)
          (joinPath (strL ".") (ab ++ '.' :: cfg.audio_mime_type))
          (ab ++ '.' :: cfg.audio_mime_type) w4 (by decide)
        rw [hap] at ha
        exact evolves_trans _ _ _ _ _ hv ha
      · rename_i b w5 hap
        have ha := audioPhase_evolves ov cfg routineStatuses id
          (joinPath cfg.video_destination_directory vfnS)
          (joinPath cfg.audio_destination_directory af)
          (joinPath (strL ".") (ab ++ '.' :: cfg.audio_mime_type))
          (ab ++ '.' :: cfg.audio_mime_type) w4 (by decide)
        rw [hap] at ha
        exact evolves_trans _ _ _ _ _ hv ha
      · rename_i w5 hap
        have ha := audioPhase_evolves ov cfg routineStatuses id
          (joinPath cfg.video_destination_directory vfnS)
          (joinPath cfg.audio_destination_directory af)
          (joinPath (strL ".") (ab ++ '.' :: cfg.audio_mime_type))
          (ab ++ '.' :: cfg.audio_mime_type) w4 (by decide)
        rw [hap] at ha
        split
        · rename_i ew hmp
          obtain ⟨e, we⟩ := ew
          have hm := mergePhase_evolves ov cfg routineStatuses id vfnS ab
            (joinPath cfg.video_destination_directory vfnS)
            (joinPath cfg.audio_destination_directory af) w5 (by decide) (by decide)
          rw [hmp] at hm
          exact evolves_trans _ _ _ _ _ hv (evolves_trans _ _ _ _ _ ha hm)
        · rename_i b w6 hmp
          have hm := mergePhase_evolves ov cfg routineStatuses id vfnS ab
            (joinPath cfg.video_destination_directory vfnS)
            (joinPath cfg.audio_destination_directory af) w5 (by decide) (by decide)
          rw [hmp] at hm
          exact evolves_trans _ _ _ _ _ hv (evolves_trans _ _ _ _ _ ha hm)
        · rename_i w6 hmp
          have hm := mergePhase_evolves ov cfg routineStatuses id vfnS ab
            (joinPath cfg.video_destination_directory vfnS)
            (joinPath cfg.audio_destination_directory af) w5 (by decide) (by decide)
          rw [hmp] at hm
          have hf := evolves_finalize ov cfg routineStatuses w6 id
            (joinPath cfg.video_destination_directory vfnS)
            (joinPath cfg.audio_destination_directory af) (by decide)
          exact evolves_trans _ _ _ _ _ hv (evolves_trans _ _ _ _ _ ha
            (evolves_trans _ _ _ _ _ hm hf))

theorem routineBody_evolves (ov : VideoOracle) (cfg : Config) (id : Chars)
    (task1 : Task) (w2 : World) :
    Evolves (tmOf cfg) routineStatuses w2.store
      (resWorld (routineBody ov cfg id task1 w2)).store := by
  simp only [routineBody]
  cases hl : ov.lengthR with
  | error e => exact evolves_refl _ _ _
  | ok n =>
    by_cases hdry : cfg.dry_run = true
    · rw [if_pos hdry]
      exact evolves_status_em cfg routineStatuses w2 id (strL "completed")
        (strL "Dry run") (by decide)
    · rw [if_neg hdry]
      cases hdb : dbText task1.final_audio_filename with
      | error e => exact evolves_refl _ _ _
      | ok af =>
        by_cases hcap : cfg.download_captions = true
        · rw [if_pos hcap]
          cases hcr : ov.captionsR with
          | error e => exact evolves_refl _ _ _
          | ok codes =>
            have hst : (captionsPhase ov cfg (pyStr task1.final_video_filename)
                codes w2).store = w2.store :=
              captionsPhase_store ov cfg _ codes w2
            have h := routinePhases_evolves ov cfg id task1 af (splitextBase af)
              (captionsPhase ov cfg (pyStr task1.final_video_filename) codes w2)
            rw [hst] at h
            exact h
        · rw [if_neg hcap]
          exact routinePhases_evolves ov cfg id task1 af (splitextBase af) w2

/-- The per-video routine, over every oracle behaviour and on every exit path
(normal return or raise), only performs `Evolves`-steps on the store with the
routine statuses. -/
theorem download_evolves (o : Oracle) (cfg : Config) (w : World) (url : Chars) :
    Evolves (tmOf cfg) routineStatuses w.store
      (resWorld (download_youtube_video o cfg w url)).store := by
  simp only [download_youtube_video]
  split
  · exact evolves_refl _ _ _
  · split
    · exact evolves_refl _ _ _
    · split
      · -- ov.init raised (run.py:429-457): fail the task if it exists.
        split
        · exact evolves_failTask cfg routineStatuses w _ _ (by decide)
        · exact evolves_refl _ _ _
      · split
        · exact evolves_refl _ _ _
        · rename_i video_title ht
          split
          · rename_i task1 hgt
            exact evolves_trans _ _ _ _ _
              (evolves_setStatus cfg routineStatuses w _ (strL "in_progress")
                (by decide))
              (routineBody_evolves (o url) cfg _ task1 _)
          · rename_i hgt
            split
            · rename_i st1 hadd
              have ha := evolves_add_task (tmOf cfg) routineStatuses w.fs
                w.store url video_title cfg.max_file_length cfg.now
              rw [hadd] at ha
              exact ha
            · rename_i st1 task1 hadd
              have ha := evolves_add_task (tmOf cfg) routineStatuses w.fs
                w.store url video_title cfg.max_file_length cfg.now
              rw [hadd] at ha
              refine evolves_trans _ _ _ _ _ ha ?_
              refine evolves_trans _ _ _ _ _
                (evolves_setStatus cfg routineStatuses { w with store := st1 }
                  (extract_youtube_id url) (strL "in_progress") (by decide)) ?_
              exact routineBody_evolves (o url) cfg _ task1 _

/-! ## Evolution through the batch driver -/

theorem precheckRest_evolves (cfg : Config) (w1 : World) (id : Chars)
    (task1 : Task) :
    Evolves (tmOf cfg) precheckStatuses w1.store
      (exWorld (precheckRest cfg w1 id task1)).store := by
  simp only [precheckRest]
  split
  · exact evolves_refl _ _ _
  · split
    · exact evolves_refl _ _ _
    · split <;> (try split) <;> (try split) <;> (try split) <;> (try split) <;>
        first
          | exact evolves_setStatus cfg precheckStatuses w1 id
              (strL "completed") (by decide)
          | exact evolves_setStatus cfg precheckStatuses w1 id
              (strL "pending") (by decide)

/-- The pre-check block only performs `Evolves`-steps with the pre-check
statuses (`completed`, `pending`) on the store. -/
theorem precheckBody_evolves (o : Oracle) (cfg : Config) (w : World)
    (url id : Chars) (task : Option Task) :
    Evolves (tmOf cfg) precheckStatuses w.store
      (exWorld (precheckBody o cfg w url id task)).store := by
  simp only [precheckBody]
  split
  · exact evolves_refl _ _ _
  · rename_i video_title ht
    split
    · exact precheckRest_evolves cfg w id _
    · split
      · rename_i st1 hadd
        have ha := evolves_add_task (tmOf cfg) precheckStatuses w.fs w.store
          url video_title cfg.max_file_length cfg.now
        rw [hadd] at ha
        exact ha
      · rename_i st1 task1 hadd
        have ha := evolves_add_task (tmOf cfg) precheckStatuses w.fs w.store
          url video_title cfg.max_file_length cfg.now
        rw [hadd] at ha
        exact evolves_trans _ _ _ _ _ ha
          (precheckRest_evolves cfg { w with store := st1 } id task1)

theorem retryLoop_evolves (cfg : Config) (S : List Chars)
    (f : World → RoutineRes)
    (hf : ∀ w', Evolves (tmOf cfg) S w'.store (resWorld (f w')).store) :
    ∀ (n : Nat) (w : World) (err : Chars),
      Evolves (tmOf cfg) S w.store (resWorld (retryLoop f n w err)).store := by
  intro n
  induction n with
  | zero => intro w err; exact evolves_refl _ _ _
  | succ m ih =>
    intro w err
    simp only [retryLoop]
    split
    · rename_i r hr
      have h := hf w
      rw [hr] at h
      exact h
    · rename_i e w2 hr
      have h := hf w
      rw [hr] at h
      exact evolves_trans _ _ _ _ _ h (ih w2 e.msg)

/-- One driver-loop iteration only performs `Evolves`-steps with the driver
statuses, provided the per-video download function does. -/
theorem preprocessItem_evolves (o : Oracle) (cfg : Config)
    (dl : Chars → World → RoutineRes) (w : World) (item : VideoItem)
    (hdl : ∀ url w', Evolves (tmOf cfg) driverStatuses w'.store
      (resWorld (dl url w')).store) :
    Evolves (tmOf cfg) driverStatuses w.store
      (preprocessItem o cfg dl w item).store := by
  simp only [preprocessItem]
  split
  · exact evolves_refl _ _ _
  · rename_i url hres
    split
    · exact evolves_refl _ _ _
    · split
      · rename_i w1 hpre
        have hp := precheckBody_evolves o cfg w url (extract_youtube_id url)
          (get_task w.store (extract_youtube_id url))
        rw [hpre] at hp
        exact evolves_mono (tmOf cfg) precheckStatuses driverStatuses _ _
          (by decide) hp
      · rename_i w1 hpre
        have hp := precheckBody_evolves o cfg w url (extract_youtube_id url)
          (get_task w.store (extract_youtube_id url))
        rw [hpre] at hp
        have h1 := evolves_mono (tmOf cfg) precheckStatuses driverStatuses _ _
          (by decide) hp
        split
        · rename_i b w2 hdleq
          have hd := hdl url w1
          rw [hdleq] at hd
          exact evolves_trans _ _ _ _ _ h1 hd
        · rename_i e2 w2 hdleq
          have hd := hdl url w1
          rw [hdleq] at hd
          exact evolves_trans _ _ _ _ _ h1 hd
      · rename_i e w1 hpre
        have hp := precheckBody_evolves o cfg w url (extract_youtube_id url)
          (get_task w.store (extract_youtube_id url))
        rw [hpre] at hp
        have h1 := evolves_mono (tmOf cfg) precheckStatuses driverStatuses _ _
          (by decide) hp
        split
        · have h2 := evolves_failTask cfg driverStatuses w1
            (extract_youtube_id url) (strL "Pre-check failed") (by decide)
          split
          · rename_i b w2 hdleq
            have hd := hdl url (failTask cfg w1 (extract_youtube_id url)
              (strL "Pre-check failed"))
            rw [hdleq] at hd
            exact evolves_trans _ _ _ _ _ h1 (evolves_trans _ _ _ _ _ h2 hd)
          · rename_i e2 w2 hdleq
            have hd := hdl url (failTask cfg w1 (extract_youtube_id url)
              (strL "Pre-check failed"))
            rw [hdleq] at hd
            exact evolves_trans _ _ _ _ _ h1 (evolves_trans _ _ _ _ _ h2 hd)
        · split
          · rename_i b w2 hdleq
            have hd := hdl url w1
            rw [hdleq] at hd
            exact evolves_trans _ _ _ _ _ h1 hd
          · rename_i e2 w2 hdleq
            have hd := hdl url w1
            rw [hdleq] at hd
            exact evolves_trans _ _ _ _ _ h1 hd

theorem preprocess_videos_evolves (o : Oracle) (cfg : Config)
    (dl : Chars → World → RoutineRes) (videos : List VideoItem)
    (hdl : ∀ url w', Evolves (tmOf cfg) driverStatuses w'.store
      (resWorld (dl url w')).store) :
    ∀ (w : World) (n : Nat),
      Evolves (tmOf cfg) driverStatuses w.store
        (videos.foldl (fun acc item =>
          (preprocessItem o cfg dl acc.1 item, acc.2 + 1)) (w, n)).1.store := by
  induction videos with
  | nil => intro w n; exact evolves_refl _ _ _
  | cons v vs ih =>
    intro w n
    rw [List.foldl_cons]
    exact evolves_trans _ _ _ _ _ (preprocessItem_evolves o cfg dl w v hdl)
      (ih (preprocessItem o cfg dl w v) (n + 1))

/-- The whole batch driver, wired with the retry-wrapped per-video routine,
only performs `Evolves`-steps with the driver statuses. -/
theorem preprocessMain_evolves (o : Oracle) (cfg : Config) (w : World)
    (videos : List VideoItem) :
    Evolves (tmOf cfg) driverStatuses w.store
      (preprocessMain o cfg w videos).1.store := by
  have hdl : ∀ url w1, Evolves (tmOf cfg) driverStatuses w1.store
      (resWorld (retry_function 3
        (fun w2 => download_youtube_video o cfg w2 url) w1)).store := by
    intro url w1
    exact retryLoop_evolves cfg driverStatuses
      (fun w2 => download_youtube_video o cfg w2 url)
      (fun w2 => evolves_mono (tmOf cfg) routineStatuses driverStatuses _ _
        (by decide) (download_evolves o cfg w2 url)) 3 w1 []
  exact preprocess_videos_evolves o cfg
    (fun url w1 => retry_function 3
      (fun w2 => download_youtube_video o cfg w2 url) w1) videos hdl w 0

/-! ## C1: status discipline of the orchestrator -/

/-- C1 (amended): the statuses the orchestrator writes are drawn from fixed
sets, but they do not move only forward; conjuncts (b)-(d) hold for every
world, oracle and configuration.  (a) A task whose status is `completed` is
skipped on sight: the per-video routine returns `True` with the
world unchanged.  (b) The per-video routine only performs `Evolves`-steps with
`routineStatuses` (`in_progress`, `completed`, `failed`) on existing rows and
creates fresh rows as `pending`.  (c) The batch pre-check performs
`Evolves`-steps with `precheckStatuses` (`completed`, `pending`): it rewrites
the status of the task it examines to `completed` or `pending` regardless of
the current status — run.py:992 moves a `failed` or `in_progress` task
backward to `pending` (see the counterexample).  (d) The whole driver, retry
re-entry included, stays within `driverStatuses`. -/
theorem C1_status_discipline (o : Oracle) (cfg : Config) (w : World)
    (url : Chars) (videos : List VideoItem) :
    (∀ t, get_task w.store (extract_youtube_id url) = some t →
      t.status = DBValue.text (strL "completed") →
      extract_youtube_id url ≠ [] →
      download_youtube_video o cfg w url = Except.ok (true, w)) ∧
    Evolves (tmOf cfg) routineStatuses w.store
      (resWorld (download_youtube_video o cfg w url)).store ∧
    (∀ id task, Evolves (tmOf cfg) precheckStatuses w.store
      (exWorld (precheckBody o cfg w url id task)).store) ∧
    Evolves (tmOf cfg) driverStatuses w.store
      (preprocessMain o cfg w videos).1.store := by
  refine ⟨?_, download_evolves o cfg w url,
    fun id task => precheckBody_evolves o cfg w url id task,
    preprocessMain_evolves o cfg w videos⟩
  intro t hgt hc hne
  simp [download_youtube_video, hne, hgt, hc]

/-- `failed` variant of the witness row. -/
def rowFW : Task := { rowW with status := DBValue.text (strL "failed") }

/-- Counterexample to C1 as stated: the pre-check block takes a task whose
status is `failed` back to `pending` (run.py:990-992), so the status does move
backward. -/
theorem C1_counterexample :
    rowFW.status = DBValue.text (strL "failed") ∧
    ((exWorld (precheckBody orcW cfgW ⟨[rowFW], fun _ => false⟩
        (strL "v=AAAAAAAAAAA") (strL "AAAAAAAAAAA")
        (some rowFW))).store.map Task.status)
      = [DBValue.text (strL "pending")] := by decide

/-- Witness for C1 on the concrete completed task, one-item batch and the
concrete pre-check call. -/
theorem C1_status_discipline_witness :
    (download_youtube_video orcW cfgW ⟨[rowCW], fun _ => false⟩
        (strL "v=AAAAAAAAAAA") =
      Except.ok (true, (⟨[rowCW], fun _ => false⟩ : World))) ∧
    Evolves (tmOf cfgW) routineStatuses [rowCW]
      (resWorld (download_youtube_video orcW cfgW ⟨[rowCW], fun _ => false⟩
        (strL "v=AAAAAAAAAAA"))).store ∧
    Evolves (tmOf cfgW) precheckStatuses [rowCW]
      (exWorld (precheckBody orcW cfgW ⟨[rowCW], fun _ => false⟩
        (strL "v=AAAAAAAAAAA") (strL "AAAAAAAAAAA") (some rowCW))).store ∧
    Evolves (tmOf cfgW) driverStatuses [rowCW]
      (preprocessMain orcW cfgW ⟨[rowCW], fun _ => false⟩
        [VideoItem.urlStr (strL "v=AAAAAAAAAAA")]).1.store :=
  have h := C1_status_discipline orcW cfgW ⟨[rowCW], fun _ => false⟩
    (strL "v=AAAAAAAAAAA") [VideoItem.urlStr (strL "v=AAAAAAAAAAA")]
  ⟨h.1 rowCW (by decide) (by decide) (by decide), h.2.1,
    h.2.2.1 (strL "AAAAAAAAAAA") (some rowCW), h.2.2.2⟩

/-! ## C10: shape of the rows `add_task` produces -/

/-- C10 (amended): every row `add_task` actually INSERTS (the branch taken
when no task for the extracted id exists yet) has status `pending` and paired
filenames built from one collision-free base with the configured video and
audio extensions, and is appended to the store; and any later store reachable
by `Evolves`-steps (which is how every orchestrator operation was shown to
act) still has the paired shape on every row carrying that id, because no
operation writes the filename columns.  The early-return branch, however,
returns the stored row whatever its status, so not every non-null task
returned by `add_task` is `pending` (see the counterexample). -/
theorem C10_inserted_row_shape (tm : TaskManagerCfg) (fs : FileSys) (st : Store)
    (u title : Chars) (N : Nat) (now : Chars) (st1 : Store) (t : Task)
    (hex : task_exists st (extract_youtube_id u) = false)
    (hadd : add_task tm fs st u title N now = (st1, some t)) :
    t.status = DBValue.text (strL "pending") ∧
    pairedTask tm t ∧
    st1 = st ++ [t] ∧
    ∀ (S : List Chars) (st2 : Store), Evolves tm S st1 st2 →
      ∀ t2 ∈ st2, t2.youtube_id = t.youtube_id → pairedTask tm t2 := by
  by_cases hid : extract_youtube_id u = []
  · exfalso
    have : add_task tm fs st u title N now = (st, none) := by
      simp [add_task, hid]
    rw [this] at hadd
    exact absurd (congrArg Prod.snd hadd) (by simp)
  · rw [add_task_not_exists tm fs st u title N now _ rfl hid hex] at hadd
    cases hloop : uniqueNameLoop tm fs st (safe_filename title N) N 999
        (safe_filename title N) with
    | none =>
      rw [hloop] at hadd
      exact absurd (congrArg Prod.snd hadd) (by simp)
    | some b =>
      rw [hloop] at hadd
      have hadd2 : (st ++ [newTaskRow tm st (extract_youtube_id u) u
            (safe_filename title N) b now],
          get_task (st ++ [newTaskRow tm st (extract_youtube_id u) u
            (safe_filename title N) b now]) (extract_youtube_id u))
          = (st1, some t) := hadd
      have hget := get_task_append_new st
        (newTaskRow tm st (extract_youtube_id u) u (safe_filename title N) b now)
        (extract_youtube_id u) hex rfl
      rw [hget] at hadd2
      have hst1 : st ++ [newTaskRow tm st (extract_youtube_id u) u
          (safe_filename title N) b now] = st1 := congrArg Prod.fst hadd2
      have ht : newTaskRow tm st (extract_youtube_id u) u
          (safe_filename title N) b now = t := by
        have := congrArg Prod.snd hadd2
        simpa using this
      subst ht
      refine ⟨rfl, ⟨b, rfl, rfl⟩, hst1.symm, ?_⟩
      intro S st2 hev t2 ht2 hid2
      have hall : ∀ x ∈ st, ¬ x.youtube_id = DBValue.text (extract_youtube_id u) := by
        simpa [task_exists] using hex
      rcases hev.2 t2 ht2 with ⟨t0, ht0, hid0, hfv, hfa, _⟩ | ⟨_, hp, _⟩
      · rw [← hst1] at ht0
        rcases List.mem_append.mp ht0 with hin | hnew
        · exfalso
          exact hall t0 hin (by rw [hid0, hid2]; rfl)
        · rcases List.mem_singleton.mp hnew with rfl
          exact ⟨b, by rw [hfv]; rfl, by rw [hfa]; rfl⟩
      · exact hp

/-- Counterexample to C10 as stated: on a store already holding a `completed`
row for the id, `add_task` returns that row, whose status is not `pending`. -/
theorem C10_counterexample :
    (add_task tmW (fun _ => false) [rowCW] (strL "v=AAAAAAAAAAA")
        (strL "My Song") 255 []).2 = some rowCW ∧
    rowCW.status ≠ DBValue.text (strL "pending") := by decide

/-- Witness for C10: the concrete first insertion on the empty store, with the
persistence conjunct instantiated at the store itself. -/
theorem C10_inserted_row_shape_witness :
    rowW.status = DBValue.text (strL "pending") ∧
    pairedTask tmW rowW ∧
    ([rowW] : Store) = [] ++ [rowW] ∧
    pairedTask tmW rowW :=
  have h := C10_inserted_row_shape tmW (fun _ => false) [] (strL "v=AAAAAAAAAAA")
    (strL "My Song") 255 [] [rowW] rowW (by decide) (by decide)
  ⟨h.1, h.2.1, h.2.2.1,
    h.2.2.2 [] [rowW] (evolves_refl tmW [] [rowW]) rowW (by decide) rfl⟩

end PytubefixRun
